import Mathlib

/-! librepute (`reputation/repute.c`): a shallow embedding

C strings are lists of characters (the terminating NUL is implicit: reading at
or past the end of the list yields NUL).  Library calls whose behaviour is
not part of this repository (`strtof`, `xmlParseMemory`, the URI template
library, libcurl, `malloc`) are fields of an explicit environment record, so
that every theorem holds for every behaviour of those collaborators.
-/

namespace Repute

/-! ## C library pieces with a fixed meaning -/

/-- One byte string as the C code sees it. -/
abbrev CStr := List Char

/-- The value `2^64 - 1` of `ULONG_MAX` on an LP64 platform. -/
def ULONG_MAX : Nat := 2 ^ 64 - 1

/-- The C library `strcasecmp`: compares byte by byte after `tolower`; the
result is the difference of the first pair that differs (NUL ends a string). -/
def strcasecmp : CStr → CStr → Int
  | [], [] => 0
  | [], b :: _ => 0 - (b.toLower.toNat : Int)
  | a :: _, [] => (a.toLower.toNat : Int)
  | a :: as, b :: bs =>
    if a.toLower = b.toLower then strcasecmp as bs
    else (a.toLower.toNat : Int) - (b.toLower.toNat : Int)

/-- The C library `isspace` in the "C" locale. -/
def isspace (c : Char) : Bool :=
  c = ' ' || c = '\t' || c = '\n' || c = '\x0b' || c = '\x0c' || c = '\r'

/-- Result of one `strtoul` call: the value, the text left at `*endptr`, and
whether `errno` was set. -/
structure StrtoulResult where
  value : Nat
  rest : CStr
  errnoSet : Bool
deriving DecidableEq, Repr

/-- Leading white space is skipped by `strtoul`. -/
def skipSpace : CStr → CStr
  | [] => []
  | c :: cs => if isspace c then skipSpace cs else c :: cs

/-- The digit loop of `strtoul` in base 10: the mathematical value read so
far, the number of digits consumed, and the text that follows them. -/
def readDigits : Nat → Nat → CStr → Nat × Nat × CStr
  | acc, k, [] => (acc, k, [])
  | acc, k, c :: cs =>
    if c.isDigit then readDigits (acc * 10 + (c.toNat - 48)) (k + 1) cs
    else (acc, k, c :: cs)

/-- Whether the text starts with a minus sign. -/
def hasMinus : CStr → Bool
  | '-' :: _ => true
  | _ => false

/-- The text after an optional sign. -/
def dropSign : CStr → CStr
  | '-' :: cs => cs
  | '+' :: cs => cs
  | cs => cs

/-- The C library `strtoul(s, &p, 10)` for a 64-bit `unsigned long`: optional
white space, an optional sign, decimal digits.  Without digits nothing is
converted (`0`, `p = s`, `errno` untouched); a value above `ULONG_MAX` gives
`ULONG_MAX` with `errno = ERANGE`; a minus sign negates in the unsigned type. -/
def strtoul (s : CStr) : StrtoulResult :=
  let t := skipSpace s
  let neg : Bool := hasMinus t
  let body : CStr := dropSign t
  match readDigits 0 0 body with
  | (v, k, rest) =>
    if k = 0 then ⟨0, s, false⟩
    else if ULONG_MAX < v then ⟨ULONG_MAX, rest, true⟩
    else if neg then ⟨(2 ^ 64 - v) % 2 ^ 64, rest, false⟩
    else ⟨v, rest, false⟩

/-- Conversion of an `unsigned long` to the signed 64-bit `time_t`. -/
def toTimeT (v : Nat) : Int :=
  if v % 2 ^ 64 < 2 ^ 63 then ((v % 2 ^ 64 : Nat) : Int)
  else ((v % 2 ^ 64 : Nat) : Int) - 2 ^ 64

/-- A C `float` value: not-a-number, the two infinities, or a finite value
(every finite float is a rational number). -/
inductive CFloat where
  | nan : CFloat
  | ninf : CFloat
  | fin (q : ℚ) : CFloat
  | pinf : CFloat
deriving DecidableEq

namespace CFloat

/-- The C comparison `a < b` on floats: false as soon as one side is NaN. -/
def lt : CFloat → CFloat → Bool
  | nan, _ => false
  | _, nan => false
  | ninf, ninf => false
  | ninf, _ => true
  | pinf, _ => false
  | fin _, ninf => false
  | fin a, fin b => decide (a < b)
  | fin _, pinf => true

/-- The C comparison `a > b` on floats. -/
def gt (a b : CFloat) : Bool := lt b a

/-- Membership of a float in the closed interval from `lo` to `hi`. -/
def inRange (lo hi : ℚ) : CFloat → Prop
  | fin q => lo ≤ q ∧ q ≤ hi
  | _ => False

end CFloat

/-! ## The libxml2 tree as far as `repute_parse` reads it -/

/-- The node kinds of libxml2 (`xmlElementType`) that can occur below a
document. -/
inductive xmlElementType where
  | XML_ELEMENT_NODE
  | XML_TEXT_NODE
  | XML_CDATA_SECTION_NODE
  | XML_PI_NODE
  | XML_COMMENT_NODE
deriving DecidableEq, Repr

/-- One `xmlNode`: `name`, `type`, `content` and the list reached through
`children` and then `next`.  `none` stands for a NULL pointer. -/
inductive xmlNode where
  | mk (name : Option CStr) (type : xmlElementType) (content : Option CStr)
      (children : List xmlNode) : xmlNode

namespace xmlNode

/-- Field `name`. -/
def name : xmlNode → Option CStr
  | mk n _ _ _ => n

/-- Field `type`. -/
def type : xmlNode → xmlElementType
  | mk _ t _ _ => t

/-- Field `content`. -/
def content : xmlNode → Option CStr
  | mk _ _ c _ => c

/-- Field `children`, followed along `next`. -/
def children : xmlNode → List xmlNode
  | mk _ _ _ cs => cs

end xmlNode

/-- One `xmlDoc`: the list of its top-level nodes. -/
structure xmlDoc where
  children : List xmlNode

/-- The libxml2 `xmlDocGetRootElement`: the first top-level element node. -/
def xmlDocGetRootElement (doc : xmlDoc) : Option xmlNode :=
  doc.children.find? (fun n => decide (n.type = xmlElementType.XML_ELEMENT_NODE))

/-! ## Constants of `repute.h` -/

/-- Modelled from the spec: the header `repute.h` with the `REPUTE_STAT_*`
constants is not in the source tree; the status taxonomy is OK, PARSE, QUERY,
INTERNAL. -/
inductive REPUTE_STAT where
  | REPUTE_STAT_OK
  | REPUTE_STAT_PARSE
  | REPUTE_STAT_QUERY
  | REPUTE_STAT_INTERNAL
deriving DecidableEq, Repr

export REPUTE_STAT (REPUTE_STAT_OK REPUTE_STAT_PARSE REPUTE_STAT_QUERY REPUTE_STAT_INTERNAL)

/-- Modelled from the spec: the `REPUTE_XML_CODE_*` constants of the missing
header `repute.h`, one per field kind of the field table, and the value for an
unrecognised name (which the code compares with `-1`). -/
inductive XmlCode where
  | REPUTE_XML_CODE_UNKNOWN
  | REPUTE_XML_CODE_ASSERTION
  | REPUTE_XML_CODE_EXTENSION
  | REPUTE_XML_CODE_RATED
  | REPUTE_XML_CODE_RATER
  | REPUTE_XML_CODE_RATER_AUTH
  | REPUTE_XML_CODE_RATING
  | REPUTE_XML_CODE_SAMPLE_SIZE
  | REPUTE_XML_CODE_UPDATED
deriving DecidableEq, Repr

export XmlCode (REPUTE_XML_CODE_UNKNOWN REPUTE_XML_CODE_ASSERTION REPUTE_XML_CODE_EXTENSION
  REPUTE_XML_CODE_RATED REPUTE_XML_CODE_RATER REPUTE_XML_CODE_RATER_AUTH
  REPUTE_XML_CODE_RATING REPUTE_XML_CODE_SAMPLE_SIZE REPUTE_XML_CODE_UPDATED)

/-- Modelled from the spec: element name of the assertion field (`repute.h` is missing). -/
def REPUTE_XML_ASSERTION : CStr := "assertion".toList
/-- Modelled from the spec: element name of the extension field (`repute.h` is missing). -/
def REPUTE_XML_EXTENSION : CStr := "extension".toList
/-- Modelled from the spec: element name of the rated field (`repute.h` is missing). -/
def REPUTE_XML_RATED : CStr := "rated".toList
/-- Modelled from the spec: element name of the rater field (`repute.h` is missing). -/
def REPUTE_XML_RATER : CStr := "rater".toList
/-- Modelled from the spec: element name of the rater-authenticity field (`repute.h` is missing). -/
def REPUTE_XML_RATER_AUTH : CStr := "rater-authenticity".toList
/-- Modelled from the spec: element name of the rating field (`repute.h` is missing). -/
def REPUTE_XML_RATING : CStr := "rating".toList
/-- Modelled from the spec: element name of the sample-size field (`repute.h` is missing). -/
def REPUTE_XML_SAMPLE_SIZE : CStr := "sample-size".toList
/-- Modelled from the spec: element name of the updated field (`repute.h` is missing). -/
def REPUTE_XML_UPDATED : CStr := "updated".toList
/-- Modelled from the spec: name of the root element (`repute.h` is missing). -/
def REPUTE_NAME_REPUTATION : CStr := "reputation".toList
/-- Modelled from the spec: name of a candidate record (`repute.h` is missing). -/
def REPUTE_NAME_REPUTON : CStr := "reputon".toList
/-- Modelled from the spec: the assertion literal (`repute.h` is missing). -/
def REPUTE_ASSERT_SENDS_SPAM : CStr := "sending-spam".toList
/-- Modelled from the spec: the extension literal (`repute.h` is missing). -/
def REPUTE_EXT_ID_DKIM : CStr := "dkim".toList

/-- One row of a lookup table (`struct repute_lookup`). -/
structure repute_lookup where
  rt_code : XmlCode
  rt_name : Option CStr

/-- The table `repute_lookup_elements`, sentinel row included. -/
def repute_lookup_elements : List repute_lookup :=
  [ ⟨REPUTE_XML_CODE_ASSERTION, some REPUTE_XML_ASSERTION⟩,
    ⟨REPUTE_XML_CODE_EXTENSION, some REPUTE_XML_EXTENSION⟩,
    ⟨REPUTE_XML_CODE_RATED, some REPUTE_XML_RATED⟩,
    ⟨REPUTE_XML_CODE_RATER, some REPUTE_XML_RATER⟩,
    ⟨REPUTE_XML_CODE_RATER_AUTH, some REPUTE_XML_RATER_AUTH⟩,
    ⟨REPUTE_XML_CODE_RATING, some REPUTE_XML_RATING⟩,
    ⟨REPUTE_XML_CODE_SAMPLE_SIZE, some REPUTE_XML_SAMPLE_SIZE⟩,
    ⟨REPUTE_XML_CODE_UPDATED, some REPUTE_XML_UPDATED⟩,
    ⟨REPUTE_XML_CODE_UNKNOWN, none⟩ ]

/-- The function `repute_name_to_code`: the code of the first row whose name
is NULL or equals `name` ignoring case.  The final `return -1` of the source
is the empty-table case. -/
def repute_name_to_code : List repute_lookup → CStr → XmlCode
  | [], _ => REPUTE_XML_CODE_UNKNOWN
  | row :: tbl, name =>
    match row.rt_name with
    | none => row.rt_code
    | some n => if strcasecmp name n = 0 then row.rt_code else repute_name_to_code tbl name

/-! ## `repute_parse` -/

/-- Library calls used by `repute_parse` whose code is outside this
repository.  `strtof s` is the value and the text left at `*endptr`;
`xmlParseMemory buf len` is the parsed document, or `none` for NULL. -/
structure Extern where
  strtof : CStr → CFloat × CStr
  xmlParseMemory : CStr → Nat → Option xmlDoc

/-- Subtraction in `size_t` (64 bits, wrapping). -/
def sizeSub (a b : Nat) : Nat := (a % 2 ^ 64 + 2 ^ 64 - b % 2 ^ 64) % 2 ^ 64

/-- The header-skipping loop of `repute_parse` with `start` at offset `i` of
the original `buf`; the third argument is the text at `start`.  The result is
the new `buf` and the new `buflen`. -/
def skipHeaderFrom (buf : CStr) (buflen : Nat) : Nat → CStr → CStr × Nat
  | _, [] => (buf, buflen)
  | i, c :: cs =>
    if c = '\n' ∧ cs.head? = some '\n' then
      (cs.drop 1, sizeSub buflen (i + 2))
    else if c = '\r' ∧ cs.head? = some '\n' ∧ (cs.drop 1).head? = some '\r'
        ∧ (cs.drop 2).head? = some '\n' then
      (cs.drop 3, sizeSub buflen (i + 4))
    else skipHeaderFrom buf buflen (i + 1) cs

/-- The header-skipping loop of `repute_parse`, started at `start = buf`. -/
def skipHeader (buf : CStr) (buflen : Nat) : CStr × Nat :=
  skipHeaderFrom buf buflen 0 buf

/-- The local variables of `repute_parse` that the two loops update. -/
structure ParseLocals where
  found_dkim : Bool
  found_spam : Bool
  conftmp : CFloat
  reptmp : CFloat
  sampletmp : Nat
  whentmp : Int
deriving DecidableEq

/-- The cells behind the output pointers of `repute_parse`: `rep` is never
NULL; for the other three `none` is a NULL pointer and `some v` a cell that
holds `v`. -/
structure Outputs where
  rep : CFloat
  conf : Option CFloat
  sample : Option Nat
  when : Option Int
deriving DecidableEq

/-- Body of the inner loop of `repute_parse` for one child `reputon` of a
candidate: the locals after this iteration.  A `continue` ends the iteration
with the locals as they are at that point. -/
def fieldStep (E : Extern) (st : ParseLocals) (reputon : xmlNode) : ParseLocals :=
  match reputon.name, reputon.type, reputon.children with
  | some name, xmlElementType.XML_ELEMENT_NODE, child :: _ =>
    match child.content with
    | none => st
    | some content =>
      match repute_name_to_code repute_lookup_elements name with
      | REPUTE_XML_CODE_UNKNOWN => st
      | REPUTE_XML_CODE_RATER => st
      | REPUTE_XML_CODE_RATER_AUTH =>
        let r := E.strtof content
        let st1 := { st with conftmp := r.1 }
        if r.2 ≠ [] ∨ CFloat.lt r.1 (CFloat.fin 0) = true ∨ CFloat.gt r.1 (CFloat.fin 1) = true then
          st1
        else if strcasecmp content REPUTE_ASSERT_SENDS_SPAM = 0 then
          { st1 with found_spam := true }
        else st1
      | REPUTE_XML_CODE_ASSERTION =>
        if strcasecmp content REPUTE_ASSERT_SENDS_SPAM = 0 then
          { st with found_spam := true }
        else st
      | REPUTE_XML_CODE_EXTENSION =>
        if strcasecmp content REPUTE_EXT_ID_DKIM = 0 then
          { st with found_dkim := true }
        else st
      | REPUTE_XML_CODE_RATED => st
      | REPUTE_XML_CODE_RATING =>
        let r := E.strtof content
        let st1 := { st with reptmp := r.1 }
        if r.2 ≠ [] ∨ CFloat.lt r.1 (CFloat.fin (-1)) = true ∨ CFloat.gt r.1 (CFloat.fin 1) = true then
          st1
        else st1
      | REPUTE_XML_CODE_SAMPLE_SIZE =>
        let r := strtoul content
        let st1 := { st with sampletmp := r.value }
        if r.errnoSet then st1 else st1
      | REPUTE_XML_CODE_UPDATED =>
        let r := strtoul content
        let st1 := { st with whentmp := toTimeT r.value }
        if r.errnoSet then st1 else st1
  | _, _, _ => st

/-- The inner loop of `repute_parse` over the children of one candidate. -/
def scanFields (E : Extern) (st : ParseLocals) (fields : List xmlNode) : ParseLocals :=
  fields.foldl (fieldStep E) st

/-- The test at the head of the outer loop: `true` when the node is skipped
(unnamed, not an element, not named "reputon", or without children). -/
def skipNode (node : xmlNode) : Bool :=
  match node.name with
  | none => true
  | some name =>
    decide (node.type ≠ xmlElementType.XML_ELEMENT_NODE) ||
    decide (strcasecmp name REPUTE_NAME_REPUTON ≠ 0) ||
    node.children.isEmpty

/-- The assignments at the head of a candidate's iteration. -/
def resetLocals (st : ParseLocals) : ParseLocals :=
  { st with found_dkim := false, found_spam := false, conftmp := CFloat.fin 0,
            reptmp := CFloat.fin 0, sampletmp := 0, whentmp := 0 }

/-- The stores through the output pointers once a candidate is accepted. -/
def writeOutputs (st : ParseLocals) (out : Outputs) : Outputs :=
  { rep := st.reptmp,
    conf := out.conf.map (fun _ => st.conftmp),
    sample := out.sample.map (fun _ => st.sampletmp),
    when := out.when.map (fun _ => st.whentmp) }

/-- The outer loop of `repute_parse` over the children of the root: the
output cells when the loop ends (by `break` after the stores, or at the end
of the list). -/
def scanReputons (E : Extern) : ParseLocals → Outputs → List xmlNode → Outputs
  | _, out, [] => out
  | st, out, node :: rest =>
    if skipNode node then scanReputons E st out rest
    else
      let st1 := scanFields E (resetLocals st) node.children
      if st1.found_dkim ∧ st1.found_spam then writeOutputs st1 out
      else scanReputons E st1 out rest

/-- The function `repute_parse`.  `junk` holds the indeterminate initial
values of the locals declared without initialiser (`found_dkim` and
`found_spam` start FALSE); the result is the status and the output cells. -/
def repute_parse (E : Extern) (junk : ParseLocals) (buf : CStr) (buflen : Nat)
    (out : Outputs) : REPUTE_STAT × Outputs :=
  let hdr := skipHeader buf buflen
  match E.xmlParseMemory hdr.1 hdr.2 with
  | none => (REPUTE_STAT_PARSE, out)
  | some doc =>
    match xmlDocGetRootElement doc with
    | none => (REPUTE_STAT_PARSE, out)
    | some node =>
      match node.name with
      | none => (REPUTE_STAT_PARSE, out)
      | some name =>
        if strcasecmp name REPUTE_NAME_REPUTATION ≠ 0 ∨ node.children.isEmpty = true then
          (REPUTE_STAT_PARSE, out)
        else
          (REPUTE_STAT_OK,
            scanReputons E { junk with found_dkim := false, found_spam := false } out
              node.children)

/-! ## Documents and library instances for concrete inputs -/

/-- An element node with the given name and children. -/
def elem (name : CStr) (children : List xmlNode) : xmlNode :=
  xmlNode.mk (some name) xmlElementType.XML_ELEMENT_NODE none children

/-- A text node, as libxml2 builds it (its name is "text"). -/
def textNode (s : CStr) : xmlNode :=
  xmlNode.mk (some "text".toList) xmlElementType.XML_TEXT_NODE (some s) []

/-- A leaf element `<name>s</name>`. -/
def leaf (name : CStr) (s : CStr) : xmlNode := elem name [textNode s]

/-- The decimal numeral of `n`, most significant digit first. -/
def decimal (n : Nat) : CStr :=
  if n = 0 then ['0'] else (Nat.digits 10 n).reverse.map Nat.digitChar

/-- The reputon of the end-to-end example, with the five free texts. -/
def exampleReputon (conf rated rating sample updated : CStr) : xmlNode :=
  elem REPUTE_NAME_REPUTON
    [ leaf REPUTE_XML_RATER_AUTH conf,
      leaf REPUTE_XML_ASSERTION REPUTE_ASSERT_SENDS_SPAM,
      leaf REPUTE_XML_RATED rated,
      leaf REPUTE_XML_RATING rating,
      leaf REPUTE_XML_SAMPLE_SIZE sample,
      leaf REPUTE_XML_UPDATED updated,
      leaf REPUTE_XML_EXTENSION REPUTE_EXT_ID_DKIM ]

/-- A document whose root `reputation` has the given children. -/
def reputationDoc (reputons : List xmlNode) : xmlDoc :=
  ⟨[elem REPUTE_NAME_REPUTATION reputons]⟩

/-- An instance of `strtof` for concrete inputs: optional white space, an
optional sign, decimal digits with an optional fraction, read exactly (the
values are the ones the spec's examples name).  Anything else is not
converted. -/
def strtofDecimal (s : CStr) : CFloat × CStr :=
  let t := skipSpace s
  let neg : Bool := hasMinus t
  let body : CStr := dropSign t
  let sign : Int := if neg then -1 else 1
  match readDigits 0 0 body with
  | (ip, k, rest) =>
    match rest with
    | '.' :: fr =>
      match readDigits 0 0 fr with
      | (fp, j, rest2) =>
        if k + j = 0 then (CFloat.fin 0, s)
        else (CFloat.fin (mkRat (sign * ((ip * 10 ^ j + fp : Nat) : Int)) (10 ^ j)), rest2)
    | _ => if k = 0 then (CFloat.fin 0, s) else (CFloat.fin (mkRat (sign * (ip : Int)) 1), rest)

/-- The body of the end-to-end example of the spec. -/
def exampleBody : CStr :=
  ("<reputation><reputon><rater-authenticity>0.9</rater-authenticity>" ++
   "<assertion>sending-spam</assertion><rated>example.com</rated>" ++
   "<rating>0.7</rating><sample-size>42</sample-size><updated>1000000</updated>" ++
   "<extension>dkim</extension></reputon></reputation>").toList

/-- The tree libxml2 builds for `exampleBody`. -/
def exampleDoc : xmlDoc :=
  reputationDoc [exampleReputon "0.9".toList "example.com".toList "0.7".toList
    "42".toList "1000000".toList]

/-- An environment for the end-to-end example: `strtofDecimal`, and a parser
that knows the example body. -/
def exampleExtern : Extern :=
  { strtof := strtofDecimal,
    xmlParseMemory := fun buf len =>
      if buf = exampleBody ∧ len = exampleBody.length then some exampleDoc else none }

/-- Some initial contents of the uninitialised locals of `repute_parse`. -/
def someJunk : ParseLocals := ⟨true, true, CFloat.nan, CFloat.pinf, 7, -7⟩

/-- Some initial contents of the four output cells. -/
def someOutputs : Outputs := ⟨CFloat.fin 3, some (CFloat.fin 4), some 5, some 6⟩

/-! ## Spec-side notions -/

/-- The locals right after the assignments at the head of a candidate. -/
def freshLocals : ParseLocals := ⟨false, false, CFloat.fin 0, CFloat.fin 0, 0, 0⟩

/-- The document is rejected structurally, in the words of the spec: the XML
parse fails, or there is no root element, or the root's name differs from
"reputation" ignoring case, or the root has no children. -/
def structurallyBad (E : Extern) (buf : CStr) (buflen : Nat) : Prop :=
  match E.xmlParseMemory (skipHeader buf buflen).1 (skipHeader buf buflen).2 with
  | none => True
  | some doc =>
    match xmlDocGetRootElement doc with
    | none => True
    | some root =>
      (¬ ∃ n, root.name = some n ∧ strcasecmp n REPUTE_NAME_REPUTATION = 0)
        ∨ root.children = []

/-- A field in the words of the spec: an element child named `name`
(ignoring case) whose text equals `lit` ignoring case. -/
def isFieldWith (name lit : CStr) (f : xmlNode) : Prop :=
  f.type = xmlElementType.XML_ELEMENT_NODE ∧
  (∃ n, f.name = some n ∧ strcasecmp n name = 0) ∧
  ∃ child rest text, f.children = child :: rest ∧ child.content = some text ∧
    strcasecmp text lit = 0

/-- A qualifying reputon in the words of the spec: an element named "reputon"
(ignoring case) that has both an extension field with text "dkim" and an
assertion field with text "sending-spam", each ignoring case. -/
def qualifies (node : xmlNode) : Prop :=
  node.type = xmlElementType.XML_ELEMENT_NODE ∧
  (∃ n, node.name = some n ∧ strcasecmp n REPUTE_NAME_REPUTON = 0) ∧
  (∃ f ∈ node.children, isFieldWith REPUTE_XML_EXTENSION REPUTE_EXT_ID_DKIM f) ∧
  (∃ f ∈ node.children, isFieldWith REPUTE_XML_ASSERTION REPUTE_ASSERT_SENDS_SPAM f)

/-- What the C standard guarantees of `strtof` on a text that does not start
with a number, as far as it is used: a text that starts with the letter s
(either case) is not converted, and `*endptr` is the text itself. -/
def StrtofSkipsLetterS (E : Extern) : Prop :=
  ∀ c cs, c.toLower = 's' → (E.strtof (c :: cs)).2 = c :: cs

/-- An environment with `strtofDecimal` whose XML parser answers `doc` for
every input. -/
def constExtern (doc : xmlDoc) : Extern :=
  { strtof := strtofDecimal, xmlParseMemory := fun _ _ => some doc }

/-- A reputon spelled in upper and mixed case. -/
def upperCaseReputon : xmlNode :=
  elem "Reputon".toList
    [ leaf "EXTENSION".toList "DKIM".toList,
      leaf "Assertion".toList "SENDING-Spam".toList,
      leaf "RATING".toList "0.25".toList ]

/-- A document spelled in upper and mixed case. -/
def upperCaseDoc : xmlDoc := ⟨[elem "REPUTATION".toList [upperCaseReputon]]⟩

/-- A reputon with an assertion but no extension: it does not qualify. -/
def assertionOnlyReputon : xmlNode :=
  elem REPUTE_NAME_REPUTON
    [ leaf REPUTE_XML_RATING "0.5".toList,
      leaf REPUTE_XML_ASSERTION REPUTE_ASSERT_SENDS_SPAM ]

/-- The reputon of the end-to-end example. -/
def goodReputon : xmlNode :=
  exampleReputon "0.9".toList "example.com".toList "0.7".toList "42".toList "1000000".toList

/-- A second qualifying reputon, with other values. -/
def laterReputon : xmlNode :=
  elem REPUTE_NAME_REPUTON
    [ leaf REPUTE_XML_RATING "-1".toList,
      leaf REPUTE_XML_ASSERTION REPUTE_ASSERT_SENDS_SPAM,
      leaf REPUTE_XML_EXTENSION REPUTE_EXT_ID_DKIM ]

/-- A qualifying reputon whose rating is 5 and whose rater-authenticity is 7. -/
def outOfRangeReputon : xmlNode :=
  elem REPUTE_NAME_REPUTON
    [ leaf REPUTE_XML_RATING "5".toList,
      leaf REPUTE_XML_RATER_AUTH "7".toList,
      leaf REPUTE_XML_ASSERTION REPUTE_ASSERT_SENDS_SPAM,
      leaf REPUTE_XML_EXTENSION REPUTE_EXT_ID_DKIM ]

/-- A document whose root is named "reputations". -/
def reputationsDoc : xmlDoc := ⟨[elem "reputations".toList [goodReputon]]⟩

/-- A document with a non-qualifying reputon, then the reputon of the
end-to-end example, then another qualifying reputon. -/
def threeReputonsDoc : xmlDoc :=
  reputationDoc ([assertionOnlyReputon] ++ goodReputon :: [laterReputon])

/-! ## The receive buffer: `repute_curl_writedata` -/

/-- Limit `REPUTE_BUFBASE`. -/
def REPUTE_BUFBASE : Nat := 1024

/-- Limit `REPUTE_URL`. -/
def REPUTE_URL : Nat := 1024

/-- The NUL byte. -/
def NUL : Char := Char.ofNat 0

/-- One `struct repute_io`.  `repute_buf` is `none` for NULL, otherwise the
bytes of the allocation (`repute_alloc` of them).  The link `repute_next` is
the position in the free list of the handle. -/
structure repute_io where
  repute_curl : Nat
  repute_alloc : Nat
  repute_offset : Nat
  repute_buf : Option (List Char)
deriving DecidableEq, Repr

/-- The final `memcpy` of `repute_curl_writedata`, the update of
`repute_offset` and the return value.  `none` when the copy would write past
the end of the allocation (or through NULL): undefined behaviour. -/
def copyIn (ptr : List Char) (io : repute_io) : Option (Nat × repute_io) :=
  match io.repute_buf with
  | none => none
  | some buf =>
    if io.repute_offset + ptr.length ≤ buf.length then
      some (ptr.length,
        { io with
          repute_buf := some (buf.take io.repute_offset ++ ptr ++
            buf.drop (io.repute_offset + ptr.length)),
          repute_offset := io.repute_offset + ptr.length })
    else none

/-- The callback `repute_curl_writedata` for a delivery of the bytes `ptr`
(`need = size * nmemb` is their number).  `mallocOk` says whether `malloc` or
`realloc` succeeds.  The result is the return value and the resource
afterwards, or `none` for undefined behaviour. -/
def repute_curl_writedata (mallocOk : Bool) (ptr : List Char) (io : repute_io) :
    Option (Nat × repute_io) :=
  let need := ptr.length
  match io.repute_buf with
  | none =>
    let io1 := { io with repute_alloc := max REPUTE_BUFBASE need }
    if mallocOk then
      copyIn ptr { io1 with repute_buf := some (List.replicate io1.repute_alloc NUL) }
    else some (0, io1)
  | some buf =>
    if io.repute_offset + need < io.repute_alloc then
      let newsize := max (io.repute_alloc * 2) (io.repute_alloc + need)
      if mallocOk then
        copyIn ptr
          { io with
            repute_buf := some (buf.take io.repute_offset ++
              List.replicate (newsize - io.repute_offset) NUL),
            repute_alloc := newsize }
      else some (0, io)
    else copyIn ptr io

/-- A sequence of deliveries, each with a successful allocation and each
taken in full; `none` as soon as one of them is undefined. -/
def writeAll : List (List Char) → repute_io → Option repute_io
  | [], io => some io
  | w :: ws, io =>
    match repute_curl_writedata true w io with
    | none => none
    | some (_, io1) => writeAll ws io1

/-- A resource as `repute_get_io` creates it. -/
def freshIo (curl : Nat) : repute_io :=
  { repute_curl := curl, repute_alloc := 0, repute_offset := 0, repute_buf := none }

/-- Append-preserving growth for a sequence of deliveries to the resource
`io`: the calls are defined, the first `repute_offset` bytes of the buffer
(none for a NULL buffer) are the concatenation of the deliveries, and
`repute_offset` is their total length. -/
def appendPreserving (ws : List (List Char)) (io : repute_io) : Prop :=
  ∃ io1, writeAll ws io = some io1 ∧
    (io1.repute_buf.getD []).take io1.repute_offset = ws.flatten ∧
    io1.repute_offset = (ws.map List.length).sum

/-! ## Handles and the pool -/

/-- One `struct repute_handle`: the free list, the server name and the
`REPUTE_URL + 1` bytes of the template field (the lock and the error buffer
play no part in a sequential run). -/
structure repute_handle where
  rep_ios : List repute_io
  rep_server : CStr
  rep_uritemp : List Char
deriving DecidableEq, Repr

/-- Everything outside the repository that a query depends on: allocation,
libcurl, the URI template library, the constants of the missing `repute.h`,
and the library calls of `repute_parse`. -/
structure World where
  mallocHandle : Bool
  strdupOk : Bool
  mallocIo : Bool
  mallocBuf : Bool
  curl_easy_init : Option Nat
  setoptWriteFunction : Bool
  setoptWriteData : Bool
  setoptUrl : Bool
  transportOk : CStr → Bool
  chunks : CStr → List (List Char)
  responseCode : CStr → Int
  ut_init : Bool
  ut_keyvalue : CStr → CStr → Bool
  ut_generate : CStr → List (CStr × CStr) → Option CStr
  REPUTE_URI_SCHEME : CStr
  REPUTE_URI_APPLICATION : CStr
  REPUTE_URI_TEMPLATE : CStr
  ext : Extern

/-- The function `repute_new`: `none` is the NULL result. -/
def repute_new (W : World) (server : CStr) : Option repute_handle :=
  if ¬ W.mallocHandle then none
  else if ¬ W.strdupOk then none
  else some { rep_ios := [], rep_server := server,
              rep_uritemp := List.replicate (REPUTE_URL + 1) NUL }

/-- The function `repute_get_io`: the resource (or `none` for NULL) and the
handle afterwards. -/
def repute_get_io (W : World) (rep : repute_handle) : Option repute_io × repute_handle :=
  match rep.rep_ios with
  | rio :: rest => (some { rio with repute_offset := 0 }, { rep with rep_ios := rest })
  | [] =>
    if ¬ W.mallocIo then (none, rep)
    else
      match W.curl_easy_init with
      | none => (none, rep)
      | some curl =>
        if ¬ W.setoptWriteFunction then (none, rep)
        else (some (freshIo curl), rep)

/-- The function `repute_put_io`. -/
def repute_put_io (rep : repute_handle) (rio : repute_io) : repute_handle :=
  { rep with rep_ios := rio :: rep.rep_ios }

/-- How a call of `repute_close` ends. -/
inductive CloseOutcome where
  | assertionFailed : CloseOutcome
  | nullDereference : CloseOutcome
  | released (ios : List repute_io) : CloseOutcome
deriving DecidableEq, Repr

/-- The loop of `repute_close`: the resources released, in order (for each
one the buffer if any, the transport handle, and the record itself). -/
def releaseAll : List repute_io → List repute_io
  | [] => []
  | rio :: next => rio :: releaseAll next

/-- The function `repute_close` on a handle pointer (`none` is NULL).  Its
first statement is `assert(rep == NULL)`; the statements after it read
`rep->rep_ios`. -/
def repute_close (rep : Option repute_handle) : CloseOutcome :=
  if rep ≠ none then CloseOutcome.assertionFailed
  else
    match rep with
    | none => CloseOutcome.nullDereference
    | some h => CloseOutcome.released (releaseAll h.rep_ios)

/-! ## Requests: `repute_doquery`, `repute_get_template`, `repute_query` -/

/-- The C string that starts at the first byte of an allocation: the bytes
before the first NUL.  `none` when the allocation holds no NUL, so that
reading the string runs past its end. -/
def cstringOf (buf : List Char) : Option CStr :=
  if NUL ∈ buf then some (buf.takeWhile (fun c => decide (c ≠ NUL))) else none

/-- How libcurl hands the response to the write callback: one call of
`repute_curl_writedata` per chunk; a call that takes in fewer bytes than it
was given makes the transfer fail.  `none` for undefined behaviour. -/
def deliver (W : World) (url : CStr) : List (List Char) → repute_io → Option (Bool × repute_io)
  | [], rio => some (W.transportOk url, rio)
  | c :: cs, rio =>
    match repute_curl_writedata W.mallocBuf c rio with
    | none => none
    | some (taken, rio1) =>
      if taken ≠ c.length then some (false, rio1) else deliver W url cs rio1

/-- The libcurl call `curl_easy_perform` with `rio` as the write target:
whether it returned `CURLE_OK`, and the resource afterwards. -/
def curl_easy_perform (W : World) (url : CStr) (rio : repute_io) : Option (Bool × repute_io) :=
  deliver W url (W.chunks url) rio

/-- The function `repute_doquery`. -/
def repute_doquery (W : World) (rio : repute_io) (url : CStr) :
    Option (REPUTE_STAT × repute_io) :=
  if ¬ W.setoptWriteData then some (REPUTE_STAT_INTERNAL, rio)
  else if ¬ W.setoptUrl then some (REPUTE_STAT_INTERNAL, rio)
  else
    match curl_easy_perform W url rio with
    | none => none
    | some (ok, rio1) =>
      if ¬ ok then some (REPUTE_STAT_QUERY, rio1)
      else if W.responseCode url ≠ 200 then some (REPUTE_STAT_QUERY, rio1)
      else some (REPUTE_STAT_OK, rio1)

/-- The two statements of `repute_get_template` that fill the template field
from the buffer of `rio`: `snprintf` with "%s" into the `REPUTE_URL + 1` bytes,
then the removal of a line feed at index `repute_offset - 1`.  `none` for
undefined behaviour (a NULL or unterminated buffer, an index outside the
field). -/
def storeTemplate (field : List Char) (rio : repute_io) : Option (List Char) :=
  match rio.repute_buf with
  | none => none
  | some buf =>
    match cstringOf buf with
    | none => none
    | some s =>
      let written := s.take REPUTE_URL ++ [NUL]
      let field1 := written ++ field.drop written.length
      if rio.repute_offset = 0 then none
      else if field1.length ≤ rio.repute_offset - 1 then none
      else if field1.get? (rio.repute_offset - 1) = some '\n' then
        some (field1.set (rio.repute_offset - 1) NUL)
      else some field1

/-- The function `repute_get_template`: status and handle afterwards, `none`
for undefined behaviour. -/
def repute_get_template (W : World) (rep : repute_handle) :
    Option (REPUTE_STAT × repute_handle) :=
  if ¬ W.ut_init then some (REPUTE_STAT_INTERNAL, rep)
  else if ¬ W.ut_keyvalue "scheme".toList W.REPUTE_URI_SCHEME
      ∨ ¬ W.ut_keyvalue "service".toList rep.rep_server
      ∨ ¬ W.ut_keyvalue "application".toList W.REPUTE_URI_APPLICATION then
    some (REPUTE_STAT_INTERNAL, rep)
  else
    match W.ut_generate W.REPUTE_URI_TEMPLATE
        [ ("scheme".toList, W.REPUTE_URI_SCHEME), ("service".toList, rep.rep_server),
          ("application".toList, W.REPUTE_URI_APPLICATION) ] with
    | none => some (REPUTE_STAT_INTERNAL, rep)
    | some url =>
      match repute_get_io W rep with
      | (none, rep1) => some (REPUTE_STAT_INTERNAL, rep1)
      | (some rio, rep1) =>
        if ¬ W.setoptWriteData then some (REPUTE_STAT_INTERNAL, repute_put_io rep1 rio)
        else if ¬ W.setoptUrl then some (REPUTE_STAT_INTERNAL, repute_put_io rep1 rio)
        else
          match curl_easy_perform W url rio with
          | none => none
          | some (ok, rio1) =>
            if ¬ ok then some (REPUTE_STAT_QUERY, repute_put_io rep1 rio1)
            else if W.responseCode url ≠ 200 then
              some (REPUTE_STAT_QUERY, repute_put_io rep1 rio1)
            else
              match storeTemplate rep1.rep_uritemp rio1 with
              | none => none
              | some field =>
                some (REPUTE_STAT_OK, repute_put_io { rep1 with rep_uritemp := field } rio1)

/-- The locals `reputation`, `conf`, `samples` and `when` of `repute_query`,
which are declared without initialiser. -/
structure QueryLocals where
  reputation : CFloat
  conf : CFloat
  samples : Nat
  when : Int
deriving DecidableEq

/-- The cells `&reputation`, `&conf`, `&samples`, `&when` that `repute_query`
hands to `repute_parse`. -/
def cellsOf (l : QueryLocals) : Outputs :=
  { rep := l.reputation, conf := some l.conf, sample := some l.samples, when := some l.when }

/-- The locals of `repute_query` read back from those cells. -/
def localsOf (cells : Outputs) (l : QueryLocals) : QueryLocals :=
  { reputation := cells.rep, conf := cells.conf.getD l.conf,
    samples := cells.sample.getD l.samples, when := cells.when.getD l.when }

/-- The stores of `repute_query` through its output pointers after a parse
that returned OK: `*repout = reputation`, and the other three when their
pointer is not NULL. -/
def copyOut (l : QueryLocals) (out : Outputs) : Outputs :=
  { rep := l.reputation,
    conf := out.conf.map (fun _ => l.conf),
    sample := out.sample.map (fun _ => l.samples),
    when := out.when.map (fun _ => l.when) }

/-- The part of `repute_query` after the template is known.  `locals` and
`junk` are the indeterminate initial values of the locals of `repute_query`
and of `repute_parse`. -/
def queryWithTemplate (W : World) (locals : QueryLocals) (junk : ParseLocals)
    (rep : repute_handle) (domain : CStr) (out : Outputs) :
    Option (REPUTE_STAT × repute_handle × Outputs) :=
  if ¬ W.ut_init then some (REPUTE_STAT_INTERNAL, rep, out)
  else if ¬ W.ut_keyvalue "subject".toList domain
      ∨ ¬ W.ut_keyvalue "scheme".toList W.REPUTE_URI_SCHEME
      ∨ ¬ W.ut_keyvalue "service".toList rep.rep_server
      ∨ ¬ W.ut_keyvalue "application".toList W.REPUTE_URI_APPLICATION
      ∨ ¬ W.ut_keyvalue "assertion".toList REPUTE_ASSERT_SENDS_SPAM then
    some (REPUTE_STAT_INTERNAL, rep, out)
  else
    match W.ut_generate (rep.rep_uritemp.takeWhile (fun c => decide (c ≠ NUL)))
        [ ("subject".toList, domain), ("scheme".toList, W.REPUTE_URI_SCHEME),
          ("service".toList, rep.rep_server),
          ("application".toList, W.REPUTE_URI_APPLICATION),
          ("assertion".toList, REPUTE_ASSERT_SENDS_SPAM) ] with
    | none => some (REPUTE_STAT_INTERNAL, rep, out)
    | some genurl =>
      match repute_get_io W rep with
      | (none, rep1) => some (REPUTE_STAT_INTERNAL, rep1, out)
      | (some rio, rep1) =>
        match repute_doquery W rio genurl with
        | none => none
        | some (status, rio1) =>
          if status ≠ REPUTE_STAT_OK then some (status, repute_put_io rep1 rio1, out)
          else
            match rio1.repute_buf with
            | none => none
            | some buf =>
              match cstringOf buf with
              | none => none
              | some text =>
                match repute_parse W.ext junk text rio1.repute_offset (cellsOf locals) with
                | (pstatus, cells) =>
                  if pstatus ≠ REPUTE_STAT_OK then
                    some (pstatus, repute_put_io rep1 rio1, out)
                  else
                    some (REPUTE_STAT_OK, repute_put_io rep1 rio1, copyOut (localsOf cells locals) out)

/-- The function `repute_query`: status, handle afterwards and the caller's
output cells afterwards; `none` when the call does not return (a failed
assertion or undefined behaviour). -/
def repute_query (W : World) (locals : QueryLocals) (junk : ParseLocals)
    (rep : repute_handle) (domain : CStr) (out : Outputs) :
    Option (REPUTE_STAT × repute_handle × Outputs) :=
  if rep.rep_uritemp.head? = some NUL ∨ rep.rep_uritemp = [] then
    match repute_get_template W rep with
    | none => none
    | some (tstatus, rep1) =>
      if tstatus ≠ REPUTE_STAT_OK then some (REPUTE_STAT_QUERY, rep1, out)
      else queryWithTemplate W locals junk rep1 domain out
  else queryWithTemplate W locals junk rep domain out

/-! ## Header stripping, spec side -/

/-- The text starts with a blank line: LF LF, or CR LF CR LF. -/
def startsBlank (s : CStr) : Bool :=
  ['\n', '\n'].isPrefixOf s || ['\r', '\n', '\r', '\n'].isPrefixOf s

/-- The text contains a blank line somewhere. -/
def hasBlankLine : CStr → Bool
  | [] => false
  | c :: cs => startsBlank (c :: cs) || hasBlankLine cs

/-- A body with a blank line inside. -/
def blankLineBody : CStr := "<reputation>\n\n<reputon/></reputation>".toList

/-- The header block of the spec's preamble example. -/
def exampleHeader : CStr := "HTTP/1.1 200 OK\r\nContent-Type: text/xml".toList

/-! ## Worlds for concrete runs -/

/-- A document whose only reputon carries another assertion: nothing
qualifies. -/
def noMatchDoc : xmlDoc :=
  reputationDoc [elem REPUTE_NAME_REPUTON [leaf REPUTE_XML_ASSERTION "other".toList]]

/-- The response body that goes with `noMatchDoc`. -/
def noMatchBody : CStr :=
  "<reputation><reputon><assertion>other</assertion></reputon></reputation>".toList

/-- A world in which every local step and the transfer succeed with status
200, the response is `noMatchBody` in one chunk and parses to `noMatchDoc`. -/
def okWorld : World :=
  { mallocHandle := true, strdupOk := true, mallocIo := true, mallocBuf := true,
    curl_easy_init := some 1,
    setoptWriteFunction := true, setoptWriteData := true, setoptUrl := true,
    transportOk := fun _ => true,
    chunks := fun _ => [noMatchBody],
    responseCode := fun _ => 200,
    ut_init := true,
    ut_keyvalue := fun _ _ => true,
    ut_generate := fun t _ => some t,
    REPUTE_URI_SCHEME := "http".toList,
    REPUTE_URI_APPLICATION := "email-id".toList,
    REPUTE_URI_TEMPLATE := "template".toList,
    ext := constExtern noMatchDoc }

/-- The same world with a failing `ut_init`: discovery ends with INTERNAL. -/
def utFailWorld : World := { okWorld with ut_init := false }

/-- The same world with a failing transfer: discovery ends with QUERY. -/
def transportFailWorld : World := { okWorld with transportOk := fun _ => false }

/-- A handle as `repute_new` makes it: empty pool, empty template. -/
def newHandle : repute_handle :=
  { rep_ios := [], rep_server := "repute.example".toList,
    rep_uritemp := List.replicate (REPUTE_URL + 1) NUL }

/-- A handle whose template is already cached. -/
def warmHandle : repute_handle :=
  { rep_ios := [], rep_server := "repute.example".toList,
    rep_uritemp := "q".toList ++ List.replicate REPUTE_URL NUL }

/-- Some indeterminate contents of the locals of `repute_query`. -/
def someLocals : QueryLocals := ⟨CFloat.fin 99, CFloat.fin 98, 97, 96⟩

/-- The resource after one delivery of `noMatchBody` to a fresh resource. -/
def filledIo : repute_io :=
  { repute_curl := 1, repute_alloc := 1024, repute_offset := noMatchBody.length,
    repute_buf := some (noMatchBody ++ List.replicate (1024 - noMatchBody.length) NUL) }

/-! ## Inputs for the pool and buffer runs -/

/-- The world `okWorld` with a failing `malloc` in `repute_get_io`. -/
def mallocFailWorld : World := { okWorld with mallocIo := false }

/-- A resource in use: a buffer of 1024 bytes of which 1000 are taken. -/
def nearlyFullIo : repute_io :=
  { repute_curl := 1, repute_alloc := 1024, repute_offset := 1000,
    repute_buf := some (List.replicate 1000 'x' ++ List.replicate 24 NUL) }

/-- The resource `filledIo` as `repute_get_io` hands it out again from the
pool: same buffer and capacity, length 0. -/
def recycledIo : repute_io := { filledIo with repute_offset := 0 }

/-- A qualifying reputon whose sample-size is too large for `unsigned long`
and whose updated field has trailing characters. -/
def malformedNumbersReputon : xmlNode :=
  elem REPUTE_NAME_REPUTON
    [ leaf REPUTE_XML_SAMPLE_SIZE "18446744073709551616".toList,
      leaf REPUTE_XML_UPDATED "12abc".toList,
      leaf REPUTE_XML_ASSERTION REPUTE_ASSERT_SENDS_SPAM,
      leaf REPUTE_XML_EXTENSION REPUTE_EXT_ID_DKIM ]

/-- The same reputon without the two malformed fields. -/
def withoutNumbersReputon : xmlNode :=
  elem REPUTE_NAME_REPUTON
    [ leaf REPUTE_XML_ASSERTION REPUTE_ASSERT_SENDS_SPAM,
      leaf REPUTE_XML_EXTENSION REPUTE_EXT_ID_DKIM ]

/-- The resource a call acquired is back on the free list when the call
returns: either the free list is untouched (nothing was acquired), or the
resource that `repute_get_io` hands out on the handle `before` (identified by
its transport handle) is the head of the free list of `after`, on top of what
`repute_get_io` left there. -/
def returnedTo (W : World) (before after : repute_handle) : Prop :=
  after.rep_ios = before.rep_ios ∨
  ∃ rio rio1, (repute_get_io W before).1 = some rio ∧
    rio1.repute_curl = rio.repute_curl ∧
    after.rep_ios = rio1 :: (repute_get_io W before).2.rep_ios

/-- The index `i` is the smallest one at which the text continues with a
blank line (LF LF or CR LF CR LF). -/
def firstBlankAt (buf : CStr) (i : Nat) : Prop :=
  startsBlank (buf.drop i) = true ∧ ∀ j, j < i → startsBlank (buf.drop j) = false

/-- An input with a CR LF blank line at index 7 and an LF blank line further
on. -/
def twoSeparators : CStr := "Host: x\r\n\r\n<a>\n\n</a>".toList

/-- An element whose name equals `name` ignoring case. -/
def isElementNamed (name : CStr) (f : xmlNode) : Prop :=
  f.type = xmlElementType.XML_ELEMENT_NODE ∧ ∃ n, f.name = some n ∧ strcasecmp n name = 0

/-- The text of a field: the content of its first child. -/
def fieldText (f : xmlNode) : Option CStr :=
  match f.children with
  | child :: _ => child.content
  | [] => none

/-- A rating field whose value lies outside [-1, 1]. -/
def defectiveRating (E : Extern) (f : xmlNode) : Prop :=
  isElementNamed REPUTE_XML_RATING f ∧
  ∃ text, fieldText f = some text ∧
    (CFloat.lt (E.strtof text).1 (CFloat.fin (-1)) = true ∨
      CFloat.gt (E.strtof text).1 (CFloat.fin 1) = true)

/-- A rater-authenticity field whose value lies outside [0, 1]. -/
def defectiveConfidence (E : Extern) (f : xmlNode) : Prop :=
  isElementNamed REPUTE_XML_RATER_AUTH f ∧
  ∃ text, fieldText f = some text ∧
    (CFloat.lt (E.strtof text).1 (CFloat.fin 0) = true ∨
      CFloat.gt (E.strtof text).1 (CFloat.fin 1) = true)

/-- The locals with the rating forgotten. -/
def eraseRep (st : ParseLocals) : ParseLocals := { st with reptmp := CFloat.fin 0 }

/-- The locals with the confidence forgotten. -/
def eraseConf (st : ParseLocals) : ParseLocals := { st with conftmp := CFloat.fin 0 }

/-- The outputs agree on everything but the rating. -/
def agreeExceptRating (o1 o2 : Outputs) : Prop :=
  o1.conf = o2.conf ∧ o1.sample = o2.sample ∧ o1.when = o2.when

/-- The outputs agree on everything but the confidence. -/
def agreeExceptConfidence (o1 o2 : Outputs) : Prop :=
  o1.rep = o2.rep ∧ o1.sample = o2.sample ∧ o1.when = o2.when

/-- The fields of a qualifying reputon around a rating field. -/
def fieldsBeforeRating : List xmlNode :=
  [ leaf REPUTE_XML_SAMPLE_SIZE "42".toList,
    leaf REPUTE_XML_RATER_AUTH "0.9".toList ]

/-- The fields of a qualifying reputon after its rating field. -/
def fieldsAfterRating : List xmlNode :=
  [ leaf REPUTE_XML_UPDATED "1000000".toList,
    leaf REPUTE_XML_ASSERTION REPUTE_ASSERT_SENDS_SPAM,
    leaf REPUTE_XML_EXTENSION REPUTE_EXT_ID_DKIM ]

/-- A rating field with the value 5. -/
def ratingFive : xmlNode := leaf REPUTE_XML_RATING "5".toList

/-- An environment with `strtofDecimal` whose XML parser answers a document
with the rating 5 for the input "with" and the same document without that
field for every other input. -/
def twoDocExtern : Extern :=
  { strtof := strtofDecimal,
    xmlParseMemory := fun buf _ =>
      if buf = "with".toList then
        some (reputationDoc [xmlNode.mk (some REPUTE_NAME_REPUTON)
          xmlElementType.XML_ELEMENT_NODE none
          (fieldsBeforeRating ++ ratingFive :: fieldsAfterRating)])
      else
        some (reputationDoc [xmlNode.mk (some REPUTE_NAME_REPUTON)
          xmlElementType.XML_ELEMENT_NODE none (fieldsBeforeRating ++ fieldsAfterRating)]) }

/-! ## The pool under interleaved callers -/

/-- The pool of one handle as its callers see it: the handle with its free
list, and the resources checked out, each with the caller that holds it. -/
structure PoolState where
  rep : repute_handle
  held : List (Nat × repute_io)

/-- The transport handles of all resources of a pool state, those on the free
list first.  A resource is identified by the transport handle it owns. -/
def liveIds (s : PoolState) : List Nat :=
  s.rep.rep_ios.map (fun r => r.repute_curl) ++ s.held.map (fun p => p.2.repute_curl)

/-- One atomic step on the pool.  `acquire`: caller `c` runs `repute_get_io`
and gets a resource; when the resource is newly created, `curl_easy_init`
gave it a transport handle that no live resource owns.  `acquireFailed`:
`repute_get_io` returned NULL.  `release`: a caller runs `repute_put_io` on
a resource it holds, in whatever state its request left the buffer. -/
inductive PoolStep : PoolState → PoolState → Prop where
  | acquire (s : PoolState) (W : World) (c : Nat) (rio : repute_io) (rep1 : repute_handle)
      (hget : repute_get_io W s.rep = (some rio, rep1))
      (hfresh : s.rep.rep_ios = [] → rio.repute_curl ∉ liveIds s) :
      PoolStep s { rep := rep1, held := (c, rio) :: s.held }
  | acquireFailed (s : PoolState) (W : World) (rep1 : repute_handle)
      (hget : repute_get_io W s.rep = (none, rep1)) :
      PoolStep s { rep := rep1, held := s.held }
  | release (s : PoolState) (c : Nat) (rio rio1 : repute_io) (pre post : List (Nat × repute_io))
      (hheld : s.held = pre ++ (c, rio) :: post)
      (hsame : rio1.repute_curl = rio.repute_curl) :
      PoolStep s { rep := repute_put_io s.rep rio1, held := pre ++ post }

/-- The pool states that an interleaving of such steps reaches from a handle
with an empty free list and nothing checked out. -/
inductive Reachable : PoolState → Prop where
  | init (rep : repute_handle) (hempty : rep.rep_ios = []) :
      Reachable { rep := rep, held := [] }
  | step (s t : PoolState) (hs : Reachable s) (hstep : PoolStep s t) : Reachable t

/-- The world `okWorld` in which `curl_easy_init` returns the handle 2. -/
def secondInitWorld : World := { okWorld with curl_easy_init := some 2 }

/-- The pool after caller 1 and caller 2 each acquired a new resource and
caller 1 released its own with a filled buffer. -/
def poolAfterThreeSteps : PoolState :=
  { rep := repute_put_io newHandle filledIo, held := [(2, freshIo 2)] ++ [] }

/-! ## Discovery responses -/

/-- A discovery response body: one line with its line feed. -/
def templateBody : CStr := "http://rep.example/q\n".toList

/-- The world `okWorld` whose responses are `templateBody` in one chunk. -/
def templateWorld : World := { okWorld with chunks := fun _ => [templateBody] }

/-- The world `okWorld` whose responses have an empty body: the write
callback is never called. -/
def emptyBodyWorld : World := { okWorld with chunks := fun _ => [] }

/-- A body of 1025 bytes, one more than the template field can hold. -/
def longBody : CStr := 'a' :: 'a' :: List.replicate 1023 'a'

/-- The world `okWorld` whose responses are `longBody`, delivered in chunks of
1, 1 and 1023 bytes. -/
def longBodyWorld : World :=
  { okWorld with chunks := fun _ => [['a'], ['a'], List.replicate 1023 'a'] }

/-- The resource after one delivery of `templateBody` to a fresh resource. -/
def templateIo : repute_io :=
  { repute_curl := 1, repute_alloc := 1024, repute_offset := templateBody.length,
    repute_buf := some (templateBody ++ List.replicate (1024 - templateBody.length) NUL) }

/-- The buffer of `io` holds exactly the bytes `data` received so far,
followed by zero bytes up to its capacity. -/
def holds (io : repute_io) (data : List Char) : Prop :=
  io.repute_buf = some (data ++ List.replicate (io.repute_alloc - data.length) NUL) ∧
  io.repute_offset = data.length ∧ data.length ≤ io.repute_alloc

/-! ## Which calls acquire a resource -/

theorem digitChar_isDigit (d : Nat) (h : d < 10) :
    (Nat.digitChar d).isDigit = true ∧ (Nat.digitChar d).toNat - 48 = d := by
  interval_cases d <;> decide

theorem readDigits_map (l : List Nat) (h : ∀ d ∈ l, d < 10) (acc k : Nat) :
    readDigits acc k (l.map Nat.digitChar) =
      (l.foldl (fun a d => a * 10 + d) acc, k + l.length, []) := by
  induction l generalizing acc k with
  | nil => simp [readDigits]
  | cons d ds ih =>
    have hd := digitChar_isDigit d (h d (by simp))
    simp only [List.map_cons, readDigits, hd.1, if_true, hd.2, List.foldl_cons, List.length_cons]
    rw [ih (fun x hx => h x (by simp [hx]))]
    simp; omega

theorem foldl_reverse_ofDigits (l : List Nat) :
    l.reverse.foldl (fun a d => a * 10 + d) 0 = Nat.ofDigits 10 l := by
  induction l with
  | nil => simp
  | cons d ds ih =>
    simp only [List.reverse_cons, List.foldl_append, List.foldl_cons, List.foldl_nil, ih,
      Nat.ofDigits_cons]
    omega

theorem strtoul_digits (d : Nat) (ds : List Nat) (h : ∀ x ∈ d :: ds, x < 10)
    (hv : (d :: ds).foldl (fun a x => a * 10 + x) 0 ≤ ULONG_MAX) :
    strtoul ((d :: ds).map Nat.digitChar) =
      ⟨(d :: ds).foldl (fun a x => a * 10 + x) 0, [], false⟩ := by
  have hd : d < 10 := h d (by simp)
  have hr := readDigits_map (d :: ds) h 0 0
  have hs : skipSpace ((d :: ds).map Nat.digitChar) = (d :: ds).map Nat.digitChar := by
    interval_cases d <;> simp [skipSpace, isspace, Nat.digitChar]
  have hneg : hasMinus ((d :: ds).map Nat.digitChar) = false := by
    interval_cases d <;> simp [Nat.digitChar, hasMinus]
  have hbody : dropSign ((d :: ds).map Nat.digitChar) = (d :: ds).map Nat.digitChar := by
    interval_cases d <;> simp [Nat.digitChar, dropSign]
  unfold strtoul
  simp only [hs, hneg, hbody, hr]
  have hk : ¬ (0 + (d :: ds).length = 0) := by simp
  have hv2 : ¬ (ULONG_MAX < (d :: ds).foldl (fun a x => a * 10 + x) 0) := by omega
  simp only [hk, hv2, if_false]
  simp

theorem strtoul_decimal (n : Nat) (hn : n < 2 ^ 64) :
    strtoul (decimal n) = ⟨n, [], false⟩ := by
  unfold decimal
  split
  · subst n; decide
  · rename_i h0
    have hval : (Nat.digits 10 n).reverse.foldl (fun a d => a * 10 + d) 0 = n := by
      rw [foldl_reverse_ofDigits, Nat.ofDigits_digits]
    have hlt : ∀ x ∈ (Nat.digits 10 n).reverse, x < 10 := by
      intro x hx
      exact Nat.digits_lt_base (by norm_num) (List.mem_reverse.mp hx)
    cases hl : (Nat.digits 10 n).reverse with
    | nil =>
      have : Nat.digits 10 n = [] := by simpa using hl
      exact absurd (Nat.digits_eq_nil_iff_eq_zero.mp this) h0
    | cons d ds =>
      rw [hl] at hval hlt
      have := strtoul_digits d ds hlt (by rw [hval]; unfold ULONG_MAX; omega)
      rw [this, hval]

theorem toTimeT_small (t : Nat) (ht : t < 2 ^ 63) : toTimeT t = (t : Int) := by
  unfold toTimeT
  have h1 : t % 2 ^ 64 = t := Nat.mod_eq_of_lt (by omega)
  rw [h1, if_pos ht]

theorem fieldStep_leaf (E : Extern) (st : ParseLocals) (name text : CStr) :
    fieldStep E st (leaf name text) =
      match repute_name_to_code repute_lookup_elements name with
      | REPUTE_XML_CODE_UNKNOWN => st
      | REPUTE_XML_CODE_RATER => st
      | REPUTE_XML_CODE_RATER_AUTH =>
        if (E.strtof text).2 ≠ [] ∨ CFloat.lt (E.strtof text).1 (CFloat.fin 0) = true
            ∨ CFloat.gt (E.strtof text).1 (CFloat.fin 1) = true then
          { st with conftmp := (E.strtof text).1 }
        else if strcasecmp text REPUTE_ASSERT_SENDS_SPAM = 0 then
          { st with conftmp := (E.strtof text).1, found_spam := true }
        else { st with conftmp := (E.strtof text).1 }
      | REPUTE_XML_CODE_ASSERTION =>
        if strcasecmp text REPUTE_ASSERT_SENDS_SPAM = 0 then { st with found_spam := true } else st
      | REPUTE_XML_CODE_EXTENSION =>
        if strcasecmp text REPUTE_EXT_ID_DKIM = 0 then { st with found_dkim := true } else st
      | REPUTE_XML_CODE_RATED => st
      | REPUTE_XML_CODE_RATING => { st with reptmp := (E.strtof text).1 }
      | REPUTE_XML_CODE_SAMPLE_SIZE => { st with sampletmp := (strtoul text).value }
      | REPUTE_XML_CODE_UPDATED => { st with whentmp := toTimeT (strtoul text).value } := by
  simp only [fieldStep, leaf, elem, textNode, xmlNode.name, xmlNode.type, xmlNode.children,
    xmlNode.content]
  cases repute_name_to_code repute_lookup_elements name <;> simp

theorem example_reputon_scan (E : Extern) (tc rated tr : CStr) (c r : ℚ) (n t : Nat)
    (hc : E.strtof tc = (CFloat.fin c, [])) (hc0 : 0 ≤ c) (hc1 : c ≤ 1)
    (hr : E.strtof tr = (CFloat.fin r, []))
    (hn : n < 2 ^ 64) (ht : t < 2 ^ 63) :
    scanFields E freshLocals (exampleReputon tc rated tr (decimal n) (decimal t)).children =
      ⟨true, true, CFloat.fin c, CFloat.fin r, n, (t : Int)⟩ := by
  have h1 : repute_name_to_code repute_lookup_elements REPUTE_XML_RATER_AUTH = REPUTE_XML_CODE_RATER_AUTH := by decide
  have h2 : repute_name_to_code repute_lookup_elements REPUTE_XML_ASSERTION = REPUTE_XML_CODE_ASSERTION := by decide
  have h3 : repute_name_to_code repute_lookup_elements REPUTE_XML_RATED = REPUTE_XML_CODE_RATED := by decide
  have h4 : repute_name_to_code repute_lookup_elements REPUTE_XML_RATING = REPUTE_XML_CODE_RATING := by decide
  have h5 : repute_name_to_code repute_lookup_elements REPUTE_XML_SAMPLE_SIZE = REPUTE_XML_CODE_SAMPLE_SIZE := by decide
  have h6 : repute_name_to_code repute_lookup_elements REPUTE_XML_UPDATED = REPUTE_XML_CODE_UPDATED := by decide
  have h7 : repute_name_to_code repute_lookup_elements REPUTE_XML_EXTENSION = REPUTE_XML_CODE_EXTENSION := by decide
  have h8 : strcasecmp REPUTE_ASSERT_SENDS_SPAM REPUTE_ASSERT_SENDS_SPAM = 0 := by decide
  have h9 : strcasecmp REPUTE_EXT_ID_DKIM REPUTE_EXT_ID_DKIM = 0 := by decide
  have hlt : CFloat.lt (CFloat.fin c) (CFloat.fin 0) = false := by
    simp [CFloat.lt, hc0]
  have hgt : CFloat.gt (CFloat.fin c) (CFloat.fin 1) = false := by
    simp [CFloat.gt, CFloat.lt, hc1]
  have ht63 : t < 2 ^ 64 := by omega
  simp only [exampleReputon, elem, xmlNode.children, scanFields, List.foldl_cons, List.foldl_nil,
    fieldStep_leaf, h1, h2, h3, h4, h5, h6, h7, h8, h9, hc, hr, hlt, hgt,
    strtoul_decimal n hn, strtoul_decimal t ht63, toTimeT_small t ht, freshLocals]
  simp
  split <;> rfl

theorem parse_reputationDoc (E : Extern) (junk : ParseLocals) (buf : CStr) (buflen : Nat)
    (out : Outputs) (node : xmlNode) (nodes : List xmlNode)
    (hdoc : E.xmlParseMemory (skipHeader buf buflen).1 (skipHeader buf buflen).2 =
      some (reputationDoc (node :: nodes))) :
    repute_parse E junk buf buflen out =
      (REPUTE_STAT_OK,
        scanReputons E { junk with found_dkim := false, found_spam := false } out
          (node :: nodes)) := by
  have h0 : strcasecmp REPUTE_NAME_REPUTATION REPUTE_NAME_REPUTATION = 0 := by decide
  simp [repute_parse, hdoc, reputationDoc, xmlDocGetRootElement, elem, xmlNode.type,
    xmlNode.name, xmlNode.children, h0]

theorem skipNode_exampleReputon (tc rated tr ts tu : CStr) :
    skipNode (exampleReputon tc rated tr ts tu) = false := by
  have h0 : strcasecmp REPUTE_NAME_REPUTON REPUTE_NAME_REPUTON = 0 := by decide
  simp [skipNode, exampleReputon, elem, xmlNode.name, xmlNode.type, xmlNode.children, h0]

/-- C1: for a clean rating `r` in [-1,1], a clean confidence `c` in [0,1], a
sample size `n` and a timestamp `t` (each within its C type), `repute_parse`
on a document whose root `reputation` holds the single reputon
rater-authenticity=c, assertion=sending-spam, rated, rating=r, sample-size=n,
updated=t, extension=dkim returns OK and stores exactly r, c, n and t. -/
theorem C1_parse_single_reputon (E : Extern) (junk : ParseLocals) (buf : CStr) (buflen : Nat)
    (out : Outputs) (tc rated tr : CStr) (c r : ℚ) (n t : Nat)
    (hdoc : E.xmlParseMemory (skipHeader buf buflen).1 (skipHeader buf buflen).2 =
      some (reputationDoc [exampleReputon tc rated tr (decimal n) (decimal t)]))
    (hc : E.strtof tc = (CFloat.fin c, [])) (hc0 : 0 ≤ c) (hc1 : c ≤ 1)
    (hr : E.strtof tr = (CFloat.fin r, [])) (_hr0 : -1 ≤ r) (_hr1 : r ≤ 1)
    (hn : n < 2 ^ 64) (ht : t < 2 ^ 63) :
    repute_parse E junk buf buflen out =
      (REPUTE_STAT_OK,
        { rep := CFloat.fin r,
          conf := out.conf.map (fun _ => CFloat.fin c),
          sample := out.sample.map (fun _ => n),
          when := out.when.map (fun _ => (t : Int)) }) := by
  rw [parse_reputationDoc E junk buf buflen out _ _ hdoc]
  have hs := example_reputon_scan E tc rated tr c r n t hc hc0 hc1 hr hn ht
  have hres : ∀ st, resetLocals st = freshLocals := fun _ => rfl
  simp [scanReputons, skipNode_exampleReputon, hres, hs, writeOutputs]

theorem decimal_42 : decimal 42 = "42".toList := by
  simp [decimal]; decide

theorem decimal_1000000 : decimal 1000000 = "1000000".toList := by
  simp [decimal]; decide

set_option maxRecDepth 100000 in
theorem skipHeader_exampleBody :
    skipHeader exampleBody exampleBody.length = (exampleBody, exampleBody.length) := by
  decide

/-- C1 at the end-to-end example of the spec: the body parses to 0.7, 0.9, 42
and 1000000. -/
theorem C1_parse_single_reputon_witness :
    repute_parse exampleExtern someJunk exampleBody exampleBody.length someOutputs =
      (REPUTE_STAT_OK,
        { rep := CFloat.fin (7 / 10), conf := some (CFloat.fin (9 / 10)),
          sample := some 42, when := some 1000000 }) := by
  have h := C1_parse_single_reputon exampleExtern someJunk exampleBody exampleBody.length
    someOutputs "0.9".toList "example.com".toList "0.7".toList (9 / 10) (7 / 10) 42 1000000
    (by
      rw [decimal_42, decimal_1000000, skipHeader_exampleBody]
      simp [exampleExtern, exampleDoc])
    (by
      have : strtofDecimal "0.9".toList = (CFloat.fin (mkRat 9 10), []) := by decide
      show strtofDecimal "0.9".toList = _
      rw [this]; norm_num)
    (by norm_num) (by norm_num)
    (by
      have : strtofDecimal "0.7".toList = (CFloat.fin (mkRat 7 10), []) := by decide
      show strtofDecimal "0.7".toList = _
      rw [this]; norm_num)
    (by norm_num) (by norm_num) (by norm_num) (by norm_num)
  simpa [someOutputs] using h

theorem strcasecmp_head (a : CStr) (b : Char) (bs : CStr)
    (h : strcasecmp a (b :: bs) = 0) (hb : b.toLower.toNat ≠ 0) :
    ∃ a0 as, a = a0 :: as ∧ a0.toLower = b.toLower := by
  cases a with
  | nil =>
    simp only [strcasecmp] at h
    omega
  | cons a0 as =>
    refine ⟨a0, as, rfl, ?_⟩
    by_contra hne
    simp only [strcasecmp, hne, if_false] at h
    have h2 : a0.toLower.toNat = b.toLower.toNat := by omega
    apply hne
    rw [← Char.ofNat_toNat a0.toLower, ← Char.ofNat_toNat b.toLower, h2]

theorem toLower_eq_s (c : Char) (h : c.toLower = 's') : c = 's' ∨ c = 'S' := by
  unfold Char.toLower at h
  simp only at h
  split_ifs at h with hc
  · right
    obtain ⟨h1, h2⟩ := hc
    have hc2 : c = Char.ofNat c.toNat := (Char.ofNat_toNat c).symm
    generalize c.toNat = n at h h1 h2 hc2
    subst hc2
    interval_cases n <;> first | rfl | (exact absurd h (by decide))
  · left; exact h

theorem code_of_extension (n : CStr) :
    repute_name_to_code repute_lookup_elements n = REPUTE_XML_CODE_EXTENSION ↔
      strcasecmp n REPUTE_XML_EXTENSION = 0 := by
  have key : strcasecmp n REPUTE_XML_EXTENSION = 0 → strcasecmp n REPUTE_XML_ASSERTION ≠ 0 := by
    intro h1 h2
    obtain ⟨a0, as, rfl, ha⟩ := strcasecmp_head n 'e' "xtension".toList h1 (by decide)
    obtain ⟨a1, as1, h3, hb⟩ := strcasecmp_head _ 'a' "ssertion".toList h2 (by decide)
    cases h3
    rw [ha] at hb
    exact absurd hb (by decide)
  simp only [repute_name_to_code, repute_lookup_elements]
  constructor
  · intro h
    split_ifs at h
    assumption
  · intro h
    rw [if_neg (key h), if_pos h]

theorem code_of_assertion (n : CStr) :
    repute_name_to_code repute_lookup_elements n = REPUTE_XML_CODE_ASSERTION ↔
      strcasecmp n REPUTE_XML_ASSERTION = 0 := by
  simp only [repute_name_to_code, repute_lookup_elements]
  constructor
  · intro h
    split_ifs at h
    assumption
  · intro h
    rw [if_pos h]

theorem fieldStep_found_dkim (E : Extern) (st : ParseLocals) (f : xmlNode) :
    (fieldStep E st f).found_dkim = true ↔
      st.found_dkim = true ∨ isFieldWith REPUTE_XML_EXTENSION REPUTE_EXT_ID_DKIM f := by
  obtain ⟨name, type, content, children⟩ := f
  cases name with
  | none => simp [fieldStep, xmlNode.name, isFieldWith]
  | some n =>
    cases children with
    | nil => cases type <;> simp [fieldStep, xmlNode.name, xmlNode.type, xmlNode.children, isFieldWith]
    | cons child rest =>
      cases hc : child.content with
      | none =>
        cases type <;>
          simp [fieldStep, xmlNode.name, xmlNode.type, xmlNode.children, isFieldWith, hc]
      | some text =>
        have hcode := code_of_extension n
        cases type <;> try
          (simp [fieldStep, xmlNode.name, xmlNode.type, xmlNode.children, isFieldWith]; done)
        cases hk : repute_name_to_code repute_lookup_elements n <;>
          simp only [hk, false_iff, true_iff, reduceCtorEq] at hcode <;>
          simp only [fieldStep, xmlNode.name, xmlNode.type, xmlNode.children, isFieldWith, hc, hk] <;>
          (try split_ifs) <;>
          simp_all

theorem strtof_not_clean_on_spam (E : Extern) (hE : StrtofSkipsLetterS E) (text : CStr)
    (h : strcasecmp text REPUTE_ASSERT_SENDS_SPAM = 0) : (E.strtof text).2 ≠ [] := by
  obtain ⟨c, cs, rfl, hc⟩ := strcasecmp_head text 's' "ending-spam".toList h (by decide)
  rw [hE c cs (by rw [hc]; decide)]
  simp

theorem fieldStep_found_spam (E : Extern) (hE : StrtofSkipsLetterS E) (st : ParseLocals)
    (f : xmlNode) :
    (fieldStep E st f).found_spam = true ↔
      st.found_spam = true ∨ isFieldWith REPUTE_XML_ASSERTION REPUTE_ASSERT_SENDS_SPAM f := by
  obtain ⟨name, type, content, children⟩ := f
  cases name with
  | none => simp [fieldStep, xmlNode.name, isFieldWith]
  | some n =>
    cases children with
    | nil => cases type <;> simp [fieldStep, xmlNode.name, xmlNode.type, xmlNode.children, isFieldWith]
    | cons child rest =>
      cases hc : child.content with
      | none =>
        cases type <;>
          simp [fieldStep, xmlNode.name, xmlNode.type, xmlNode.children, isFieldWith, hc]
      | some text =>
        have hcode := code_of_assertion n
        have hspam := strtof_not_clean_on_spam E hE text
        cases type <;> try
          (simp [fieldStep, xmlNode.name, xmlNode.type, xmlNode.children, isFieldWith]; done)
        cases hk : repute_name_to_code repute_lookup_elements n <;>
          simp only [hk, false_iff, true_iff, reduceCtorEq] at hcode <;>
          simp only [fieldStep, xmlNode.name, xmlNode.type, xmlNode.children, isFieldWith, hc, hk] <;>
          (try split_ifs) <;>
          simp_all

theorem scanFields_found_dkim (E : Extern) (fs : List xmlNode) (st : ParseLocals) :
    (scanFields E st fs).found_dkim = true ↔
      st.found_dkim = true ∨ ∃ f ∈ fs, isFieldWith REPUTE_XML_EXTENSION REPUTE_EXT_ID_DKIM f := by
  induction fs generalizing st with
  | nil => simp [scanFields]
  | cons f fs ih =>
    have h := ih (fieldStep E st f)
    simp only [scanFields, List.foldl_cons] at h ⊢
    rw [h, fieldStep_found_dkim]
    simp only [List.mem_cons, exists_eq_or_imp, or_assoc]

theorem scanFields_found_spam (E : Extern) (hE : StrtofSkipsLetterS E) (fs : List xmlNode)
    (st : ParseLocals) :
    (scanFields E st fs).found_spam = true ↔
      st.found_spam = true ∨
        ∃ f ∈ fs, isFieldWith REPUTE_XML_ASSERTION REPUTE_ASSERT_SENDS_SPAM f := by
  induction fs generalizing st with
  | nil => simp [scanFields]
  | cons f fs ih =>
    have h := ih (fieldStep E st f)
    simp only [scanFields, List.foldl_cons] at h ⊢
    rw [h, fieldStep_found_spam E hE]
    simp only [List.mem_cons, exists_eq_or_imp, or_assoc]

/-- The code accepts a node exactly when it qualifies in the words of the spec. -/
theorem accepts_iff_qualifies (E : Extern) (hE : StrtofSkipsLetterS E) (node : xmlNode) :
    (skipNode node = false ∧
      (scanFields E freshLocals node.children).found_dkim = true ∧
      (scanFields E freshLocals node.children).found_spam = true) ↔ qualifies node := by
  rw [scanFields_found_dkim, scanFields_found_spam E hE]
  obtain ⟨name, type, content, children⟩ := node
  cases name with
  | none => simp [skipNode, qualifies, xmlNode.name]
  | some n =>
    cases children with
    | nil => simp [skipNode, qualifies, xmlNode.name, xmlNode.children, freshLocals]
    | cons c cs =>
      simp only [skipNode, qualifies, xmlNode.name, xmlNode.children, xmlNode.type, freshLocals]
      simp
      tauto

theorem resetLocals_eq (st : ParseLocals) : resetLocals st = freshLocals := rfl

theorem scanReputons_cons_reject (E : Extern) (hE : StrtofSkipsLetterS E) (st : ParseLocals)
    (out : Outputs) (node : xmlNode) (rest : List xmlNode) (h : ¬ qualifies node) :
    ∃ st1, scanReputons E st out (node :: rest) = scanReputons E st1 out rest := by
  by_cases hs : skipNode node = true
  · exact ⟨st, by simp [scanReputons, hs]⟩
  · refine ⟨scanFields E freshLocals node.children, ?_⟩
    have hacc := (accepts_iff_qualifies E hE node).not.mpr h
    have hs2 : skipNode node = false := by simpa using hs
    have : ¬ ((scanFields E freshLocals node.children).found_dkim = true ∧
        (scanFields E freshLocals node.children).found_spam = true) := fun hh => hacc ⟨hs2, hh⟩
    simp [scanReputons, hs2, resetLocals_eq, this]

theorem scanReputons_cons_accept (E : Extern) (hE : StrtofSkipsLetterS E) (st : ParseLocals)
    (out : Outputs) (node : xmlNode) (rest : List xmlNode) (h : qualifies node) :
    scanReputons E st out (node :: rest) =
      writeOutputs (scanFields E freshLocals node.children) out := by
  obtain ⟨hs, hd, hp⟩ := (accepts_iff_qualifies E hE node).mpr h
  simp [scanReputons, hs, resetLocals_eq, hd, hp]

theorem scanReputons_none (E : Extern) (hE : StrtofSkipsLetterS E) (nodes : List xmlNode)
    (st : ParseLocals) (out : Outputs) (h : ∀ n ∈ nodes, ¬ qualifies n) :
    scanReputons E st out nodes = out := by
  induction nodes generalizing st with
  | nil => rfl
  | cons n ns ih =>
    obtain ⟨st1, h1⟩ := scanReputons_cons_reject E hE st out n ns (h n (by simp))
    rw [h1]
    exact ih st1 (fun m hm => h m (by simp [hm]))

theorem scanReputons_first (E : Extern) (hE : StrtofSkipsLetterS E) (pre : List xmlNode)
    (node : xmlNode) (post : List xmlNode) (st : ParseLocals) (out : Outputs)
    (hpre : ∀ n ∈ pre, ¬ qualifies n) (hq : qualifies node) :
    scanReputons E st out (pre ++ node :: post) =
      writeOutputs (scanFields E freshLocals node.children) out := by
  induction pre generalizing st with
  | nil => exact scanReputons_cons_accept E hE st out node post hq
  | cons n ns ih =>
    obtain ⟨st1, h1⟩ := scanReputons_cons_reject E hE st out n (ns ++ node :: post)
      (hpre n (by simp))
    rw [List.cons_append, h1]
    exact ih st1 (fun m hm => hpre m (by simp [hm]))

theorem exists_first_qualifying (nodes : List xmlNode) (h : ∃ n ∈ nodes, qualifies n) :
    ∃ pre node post, nodes = pre ++ node :: post ∧ (∀ n ∈ pre, ¬ qualifies n) ∧
      qualifies node := by
  classical
  induction nodes with
  | nil => simp at h
  | cons n ns ih =>
    by_cases hn : qualifies n
    · exact ⟨[], n, ns, rfl, by simp, hn⟩
    · have : ∃ m ∈ ns, qualifies m := by
        obtain ⟨m, hm, hq⟩ := h
        rcases List.mem_cons.mp hm with rfl | hm'
        · exact absurd hq hn
        · exact ⟨m, hm', hq⟩
      obtain ⟨pre, node, post, he, hp, hq⟩ := ih this
      refine ⟨n :: pre, node, post, by rw [he]; rfl, ?_, hq⟩
      intro m hm
      rcases List.mem_cons.mp hm with rfl | hm'
      · exact hn
      · exact hp m hm'

theorem parse_accepted (E : Extern) (junk : ParseLocals) (buf : CStr) (buflen : Nat)
    (out : Outputs) (doc : xmlDoc) (root : xmlNode) (name : CStr)
    (hdoc : E.xmlParseMemory (skipHeader buf buflen).1 (skipHeader buf buflen).2 = some doc)
    (hroot : xmlDocGetRootElement doc = some root)
    (hname : root.name = some name) (hmatch : strcasecmp name REPUTE_NAME_REPUTATION = 0)
    (hch : root.children ≠ []) :
    repute_parse E junk buf buflen out =
      (REPUTE_STAT_OK,
        scanReputons E { junk with found_dkim := false, found_spam := false } out
          root.children) := by
  have : root.children.isEmpty = false := by
    cases h : root.children with
    | nil => exact absurd h hch
    | cons _ _ => rfl
  simp [repute_parse, hdoc, hroot, hname, hmatch, this]

/-- C2: for a document accepted structurally, `repute_parse` stores through
its output pointers if and only if some child of the root qualifies (an
element named reputon with an extension field equal to "dkim" and an assertion
field equal to "sending-spam", ignoring case); no other field, the
rater-authenticity fall-through included, makes a reputon qualify; and when no
child qualifies the outputs are left as they were. -/
theorem C2_writes_iff_qualifying (E : Extern) (hE : StrtofSkipsLetterS E) (junk : ParseLocals)
    (buf : CStr) (buflen : Nat) (doc : xmlDoc) (root : xmlNode) (name : CStr)
    (hdoc : E.xmlParseMemory (skipHeader buf buflen).1 (skipHeader buf buflen).2 = some doc)
    (hroot : xmlDocGetRootElement doc = some root)
    (hname : root.name = some name) (hmatch : strcasecmp name REPUTE_NAME_REPUTATION = 0)
    (hch : root.children ≠ []) :
    ((∃ node ∈ root.children, qualifies node) ↔
      ∃ st, ∀ out, repute_parse E junk buf buflen out = (REPUTE_STAT_OK, writeOutputs st out)) ∧
    ((¬ ∃ node ∈ root.children, qualifies node) →
      ∀ out, repute_parse E junk buf buflen out = (REPUTE_STAT_OK, out)) := by
  have hp := fun out => parse_accepted E junk buf buflen out doc root name hdoc hroot hname hmatch hch
  have hnone : (¬ ∃ node ∈ root.children, qualifies node) →
      ∀ out, repute_parse E junk buf buflen out = (REPUTE_STAT_OK, out) := by
    intro h out
    rw [hp out, scanReputons_none E hE root.children _ out (fun n hn hq => h ⟨n, hn, hq⟩)]
  refine ⟨⟨?_, ?_⟩, hnone⟩
  · intro h
    obtain ⟨pre, node, post, he, hpre, hq⟩ := exists_first_qualifying root.children h
    refine ⟨scanFields E freshLocals node.children, fun out => ?_⟩
    rw [hp out, he, scanReputons_first E hE pre node post _ out hpre hq]
  · rintro ⟨st, hst⟩
    by_contra hno
    have h0 := hnone hno
    have ha := (hst ⟨CFloat.fin 0, none, none, none⟩).symm.trans (h0 ⟨CFloat.fin 0, none, none, none⟩)
    have hb := (hst ⟨CFloat.fin 1, none, none, none⟩).symm.trans (h0 ⟨CFloat.fin 1, none, none, none⟩)
    simp only [writeOutputs, Prod.mk.injEq, true_and, Outputs.mk.injEq] at ha hb
    have : CFloat.fin 0 = CFloat.fin 1 := ha.1.symm.trans hb.1
    simp at this

/-- C3: when a child of the root qualifies, the values `repute_parse` stores
are the ones accumulated from the first qualifying child alone: whatever comes
after it and whatever non-qualifying children come before it, the result is
the scan of that child's fields started from freshly reset locals. -/
theorem C3_first_qualifying_wins (E : Extern) (hE : StrtofSkipsLetterS E) (junk : ParseLocals)
    (buf : CStr) (buflen : Nat) (out : Outputs) (doc : xmlDoc) (root : xmlNode) (name : CStr)
    (pre post : List xmlNode) (node : xmlNode)
    (hdoc : E.xmlParseMemory (skipHeader buf buflen).1 (skipHeader buf buflen).2 = some doc)
    (hroot : xmlDocGetRootElement doc = some root)
    (hname : root.name = some name) (hmatch : strcasecmp name REPUTE_NAME_REPUTATION = 0)
    (hchildren : root.children = pre ++ node :: post)
    (hpre : ∀ n ∈ pre, ¬ qualifies n) (hq : qualifies node) :
    repute_parse E junk buf buflen out =
      (REPUTE_STAT_OK, writeOutputs (scanFields E freshLocals node.children) out) := by
  rw [parse_accepted E junk buf buflen out doc root name hdoc hroot hname hmatch
    (by rw [hchildren]; simp), hchildren,
    scanReputons_first E hE pre node post _ out hpre hq]

theorem strtofDecimal_skips_s : StrtofSkipsLetterS (constExtern doc) := by
  intro c cs hc
  rcases toLower_eq_s c hc with rfl | rfl <;>
    simp [constExtern, strtofDecimal, skipSpace, isspace, hasMinus, dropSign, readDigits]

theorem qualifies_upperCaseReputon : qualifies upperCaseReputon := by
  refine (accepts_iff_qualifies (constExtern upperCaseDoc) strtofDecimal_skips_s _).mp ?_
  decide

/-- C2 on a document spelled in upper and mixed case: the reputon qualifies,
so the outputs are stored. -/
theorem C2_writes_iff_qualifying_witness :
    ∃ st, ∀ out, repute_parse (constExtern upperCaseDoc) someJunk [] 0 out =
      (REPUTE_STAT_OK, writeOutputs st out) :=
  (C2_writes_iff_qualifying (constExtern upperCaseDoc) strtofDecimal_skips_s someJunk [] 0
    upperCaseDoc (elem "REPUTATION".toList [upperCaseReputon]) "REPUTATION".toList
    rfl rfl rfl (by decide) (by simp [elem, xmlNode.children])).1.mp
    ⟨upperCaseReputon, by simp [elem, xmlNode.children], qualifies_upperCaseReputon⟩

theorem scan_goodReputon :
    scanFields (constExtern threeReputonsDoc) freshLocals goodReputon.children =
      ⟨true, true, CFloat.fin (9 / 10), CFloat.fin (7 / 10), 42, 1000000⟩ := by
  have h : scanFields (constExtern threeReputonsDoc) freshLocals goodReputon.children =
      ⟨true, true, CFloat.fin (mkRat 9 10), CFloat.fin (mkRat 7 10), 42, 1000000⟩ := by
    decide
  rw [h]; norm_num

/-- C3 on a document with a non-qualifying reputon, then the reputon of the
end-to-end example, then another qualifying reputon: the stored values are
those of the example reputon. -/
theorem C3_first_qualifying_wins_witness :
    repute_parse (constExtern threeReputonsDoc)
        someJunk [] 0 someOutputs =
      (REPUTE_STAT_OK,
        { rep := CFloat.fin (7 / 10), conf := some (CFloat.fin (9 / 10)),
          sample := some 42, when := some 1000000 }) := by
  have h := C3_first_qualifying_wins (constExtern threeReputonsDoc)
    strtofDecimal_skips_s someJunk [] 0 someOutputs threeReputonsDoc
    (elem REPUTE_NAME_REPUTATION ([assertionOnlyReputon] ++ goodReputon :: [laterReputon]))
    REPUTE_NAME_REPUTATION [assertionOnlyReputon] [laterReputon] goodReputon
    rfl rfl rfl (by decide) rfl
    (by
      intro n hn
      rw [List.mem_singleton.mp hn]
      refine (accepts_iff_qualifies (constExtern upperCaseDoc) strtofDecimal_skips_s _).not.mp ?_
      decide)
    ((accepts_iff_qualifies (constExtern upperCaseDoc) strtofDecimal_skips_s _).mp (by decide))
  rw [h, scan_goodReputon]
  rfl

/-- C4, the code at the failing input: a qualifying reputon with rating 5 and
rater-authenticity 7 makes `repute_parse` store 5 and 7, both outside their
ranges. -/
theorem C4_out_of_range_values_are_stored :
    repute_parse (constExtern (reputationDoc [outOfRangeReputon])) someJunk [] 0 someOutputs =
        (REPUTE_STAT_OK,
          { rep := CFloat.fin 5, conf := some (CFloat.fin 7), sample := some 0, when := some 0 }) ∧
      ¬ CFloat.inRange (-1) 1 (CFloat.fin 5) ∧ ¬ CFloat.inRange 0 1 (CFloat.fin 7) := by
  refine ⟨?_, by simp [CFloat.inRange], by simp [CFloat.inRange]⟩
  have h : repute_parse (constExtern (reputationDoc [outOfRangeReputon])) someJunk [] 0
      someOutputs = (REPUTE_STAT_OK,
        { rep := CFloat.fin (mkRat 5 1), conf := some (CFloat.fin (mkRat 7 1)),
          sample := some 0, when := some 0 }) := by
    decide
  rw [h]; norm_num

/-- C5: `repute_parse` returns PARSE exactly when the XML parse fails, the
document has no root element, the root's name differs from "reputation"
ignoring case, or the root has no children; otherwise it returns OK, whatever
the reputon fields contain. -/
theorem C5_parse_status (E : Extern) (junk : ParseLocals) (buf : CStr) (buflen : Nat)
    (out : Outputs) :
    ((repute_parse E junk buf buflen out).1 = REPUTE_STAT_PARSE ↔ structurallyBad E buf buflen) ∧
    ((repute_parse E junk buf buflen out).1 = REPUTE_STAT_OK ↔ ¬ structurallyBad E buf buflen) := by
  unfold repute_parse structurallyBad
  cases hdoc : E.xmlParseMemory (skipHeader buf buflen).1 (skipHeader buf buflen).2 with
  | none => simp [hdoc]
  | some doc =>
    cases hroot : xmlDocGetRootElement doc with
    | none => simp [hdoc, hroot]
    | some root =>
      cases hname : root.name with
      | none => simp [hdoc, hroot, hname]
      | some name =>
        by_cases h1 : strcasecmp name REPUTE_NAME_REPUTATION = 0
        · cases hch : root.children with
          | nil => simp [hdoc, hroot, hname, h1, hch]
          | cons c cs => simp [hdoc, hroot, hname, h1, hch]
        · simp [hdoc, hroot, hname, h1]

theorem reputations_root_is_rejected :
    (repute_parse (constExtern reputationsDoc) someJunk [] 0 someOutputs).1 =
      REPUTE_STAT_PARSE := by
  decide

/-! ### C6: a query without a match -/

set_option maxRecDepth 100000 in
theorem query_okWorld_run :
    repute_query okWorld someLocals someJunk warmHandle "example.com".toList someOutputs =
      some (REPUTE_STAT_OK, repute_put_io warmHandle filledIo,
        { rep := CFloat.fin 99, conf := some (CFloat.fin 98), sample := some 97,
          when := some 96 }) := by
  decide

/-- C6, the code at the failing input: the request succeeds with status 200,
no reputon of the response qualifies, the call returns OK, and the caller's
four output cells now hold the never-assigned locals of `repute_query`
instead of their previous values. -/
theorem C6_no_match_overwrites_outputs :
    repute_query okWorld someLocals someJunk warmHandle "example.com".toList someOutputs =
        some (REPUTE_STAT_OK, repute_put_io warmHandle filledIo,
          { rep := CFloat.fin 99, conf := some (CFloat.fin 98), sample := some 97,
            when := some 96 }) ∧
      someOutputs =
        { rep := CFloat.fin 3, conf := some (CFloat.fin 4), sample := some 5, when := some 6 } :=
  ⟨query_okWorld_run, rfl⟩

/-! ### C7: header stripping -/

theorem lf_cond_iff (c : Char) (cs : CStr) :
    (c = '\n' ∧ cs.head? = some '\n') ↔ ['\n', '\n'].isPrefixOf (c :: cs) = true := by
  cases cs with
  | nil => simp [List.isPrefixOf]
  | cons d ds =>
    simp only [List.isPrefixOf, List.head?_cons, Option.some.injEq, Bool.and_true,
      Bool.and_eq_true, beq_iff_eq]
    constructor
    · rintro ⟨rfl, rfl⟩; exact ⟨rfl, rfl⟩
    · rintro ⟨rfl, rfl⟩; exact ⟨rfl, rfl⟩

theorem crlf_cond_iff (c : Char) (cs : CStr) :
    (c = '\r' ∧ cs.head? = some '\n' ∧ (cs.drop 1).head? = some '\r'
        ∧ (cs.drop 2).head? = some '\n') ↔
      ['\r', '\n', '\r', '\n'].isPrefixOf (c :: cs) = true := by
  rcases cs with _ | ⟨d, _ | ⟨e, _ | ⟨f, fs⟩⟩⟩
  · simp [List.isPrefixOf]
  · simp [List.isPrefixOf]
  · simp [List.isPrefixOf]
  · simp only [List.isPrefixOf, List.head?_cons, Option.some.injEq, Bool.and_true,
      Bool.and_eq_true, beq_iff_eq, List.drop_succ_cons, List.drop_zero]
    constructor
    · rintro ⟨rfl, rfl, rfl, rfl⟩; exact ⟨rfl, rfl, rfl, rfl⟩
    · rintro ⟨rfl, rfl, rfl, rfl⟩; exact ⟨rfl, rfl, rfl, rfl⟩

theorem skipHeaderFrom_step (buf : CStr) (buflen i : Nat) (c : Char) (cs : CStr)
    (h : startsBlank (c :: cs) = false) :
    skipHeaderFrom buf buflen i (c :: cs) = skipHeaderFrom buf buflen (i + 1) cs := by
  simp only [startsBlank, Bool.or_eq_false_iff] at h
  have h1 : ¬ (c = '\n' ∧ cs.head? = some '\n') := by
    rw [lf_cond_iff]; simp [h.1]
  have h2 : ¬ (c = '\r' ∧ cs.head? = some '\n' ∧ (cs.drop 1).head? = some '\r'
      ∧ (cs.drop 2).head? = some '\n') := by
    rw [crlf_cond_iff]; simp [h.2]
  rw [skipHeaderFrom, if_neg h1, if_neg h2]

theorem skipHeaderFrom_no_blank (buf : CStr) (buflen : Nat) (s : CStr) (i : Nat)
    (h : hasBlankLine s = false) : skipHeaderFrom buf buflen i s = (buf, buflen) := by
  induction s generalizing i with
  | nil => rfl
  | cons c cs ih =>
    simp only [hasBlankLine, Bool.or_eq_false_iff] at h
    rw [skipHeaderFrom_step buf buflen i c cs h.1]
    exact ih (i + 1) h.2

theorem startsBlank_lf_sep (h : Char) (H B : CStr)
    (hs : startsBlank (h :: H ++ ['\n']) = false) :
    startsBlank (h :: H ++ '\n' :: '\n' :: B) = false := by
  rcases H with _ | ⟨a, _ | ⟨b, _ | ⟨c, H⟩⟩⟩ <;>
    simp only [startsBlank, List.isPrefixOf, List.cons_append, List.nil_append, Bool.and_true,
      Bool.and_false, Bool.or_false, Bool.or_eq_false_iff, Bool.and_eq_false_iff,
      beq_eq_false_iff_ne, ne_eq, beq_self_eq_true, Bool.true_and] at hs ⊢ <;>
    first
      | exact hs
      | exact ⟨hs, Or.inr (Or.inl (by decide))⟩
      | exact ⟨hs, Or.inr (Or.inr (by decide))⟩

theorem startsBlank_crlf_sep (h : Char) (H B : CStr)
    (hs : startsBlank (h :: H ++ ['\r', '\n', '\r']) = false) :
    startsBlank (h :: H ++ '\r' :: '\n' :: '\r' :: '\n' :: B) = false := by
  rcases H with _ | ⟨a, _ | ⟨b, _ | ⟨c, H⟩⟩⟩ <;>
    simp only [startsBlank, List.isPrefixOf, List.cons_append, List.nil_append, Bool.and_true,
      Bool.and_false, Bool.or_false, Bool.or_eq_false_iff, Bool.and_eq_false_iff,
      beq_eq_false_iff_ne, ne_eq, beq_self_eq_true, Bool.true_and] at hs ⊢ <;>
    exact hs

theorem skipHeaderFrom_lf_sep (buf : CStr) (buflen : Nat) (H B : CStr) (i : Nat)
    (h : hasBlankLine (H ++ ['\n']) = false) :
    skipHeaderFrom buf buflen i (H ++ '\n' :: '\n' :: B) =
      (B, sizeSub buflen (i + H.length + 2)) := by
  induction H generalizing i with
  | nil => simp [skipHeaderFrom]
  | cons c cs ih =>
    simp only [List.cons_append, hasBlankLine, Bool.or_eq_false_iff] at h
    have hs := startsBlank_lf_sep c cs B (by simpa using h.1)
    rw [List.cons_append, skipHeaderFrom_step buf buflen i c _ (by simpa using hs), ih (i + 1) h.2]
    simp only [List.length_cons]
    congr 2
    omega

theorem skipHeaderFrom_crlf_sep (buf : CStr) (buflen : Nat) (H B : CStr) (i : Nat)
    (h : hasBlankLine (H ++ ['\r', '\n', '\r']) = false) :
    skipHeaderFrom buf buflen i (H ++ '\r' :: '\n' :: '\r' :: '\n' :: B) =
      (B, sizeSub buflen (i + H.length + 4)) := by
  induction H generalizing i with
  | nil => simp [skipHeaderFrom]
  | cons c cs ih =>
    simp only [List.cons_append, hasBlankLine, Bool.or_eq_false_iff] at h
    have hs := startsBlank_crlf_sep c cs B (by simpa using h.1)
    rw [List.cons_append, skipHeaderFrom_step buf buflen i c _ (by simpa using hs), ih (i + 1) h.2]
    simp only [List.length_cons]
    congr 2
    omega

theorem sizeSub_exact (a b : Nat) (ha : a + b < 2 ^ 64) : sizeSub (a + b) a = b := by
  unfold sizeSub
  rw [Nat.mod_eq_of_lt ha, Nat.mod_eq_of_lt (by omega : a < 2 ^ 64)]
  have : a + b + 2 ^ 64 - a = b + 2 ^ 64 := by omega
  rw [this, Nat.add_mod_right, Nat.mod_eq_of_lt (by omega)]

/-- C7, amended: for a body `B` without a blank line and a header block `H`
in which the appended separator is the first blank line, the header-stripping
step hands the bytes `B` and the length of `B` to the XML parser for the three
inputs `B`, `H` LF LF `B` and `H` CR LF CR LF `B`, so `repute_parse` gives the
same result on all three. -/
theorem C7_header_stripping (B H : CStr) (hB : hasBlankLine B = false)
    (hLF : hasBlankLine (H ++ ['\n']) = false)
    (hCR : hasBlankLine (H ++ ['\r', '\n', '\r']) = false)
    (hlen : H.length + 4 + B.length < 2 ^ 64) :
    skipHeader B B.length = (B, B.length) ∧
    skipHeader (H ++ '\n' :: '\n' :: B) (H ++ '\n' :: '\n' :: B).length = (B, B.length) ∧
    skipHeader (H ++ '\r' :: '\n' :: '\r' :: '\n' :: B)
      (H ++ '\r' :: '\n' :: '\r' :: '\n' :: B).length = (B, B.length) ∧
    ∀ (E : Extern) (junk : ParseLocals) (out : Outputs),
      repute_parse E junk (H ++ '\n' :: '\n' :: B) (H ++ '\n' :: '\n' :: B).length out =
        repute_parse E junk B B.length out ∧
      repute_parse E junk (H ++ '\r' :: '\n' :: '\r' :: '\n' :: B)
          (H ++ '\r' :: '\n' :: '\r' :: '\n' :: B).length out =
        repute_parse E junk B B.length out := by
  have h1 : skipHeader B B.length = (B, B.length) := skipHeaderFrom_no_blank B B.length B 0 hB
  have h2 : skipHeader (H ++ '\n' :: '\n' :: B) (H ++ '\n' :: '\n' :: B).length =
      (B, B.length) := by
    unfold skipHeader
    rw [skipHeaderFrom_lf_sep _ _ H B 0 hLF]
    have e : (H ++ '\n' :: '\n' :: B).length = (0 + H.length + 2) + B.length := by
      simp; omega
    rw [e, sizeSub_exact _ _ (by omega)]
  have h3 : skipHeader (H ++ '\r' :: '\n' :: '\r' :: '\n' :: B)
      (H ++ '\r' :: '\n' :: '\r' :: '\n' :: B).length = (B, B.length) := by
    unfold skipHeader
    rw [skipHeaderFrom_crlf_sep _ _ H B 0 hCR]
    have e : (H ++ '\r' :: '\n' :: '\r' :: '\n' :: B).length = (0 + H.length + 4) + B.length := by
      simp; omega
    rw [e, sizeSub_exact _ _ (by omega)]
  refine ⟨h1, h2, h3, fun E junk out => ⟨?_, ?_⟩⟩
  · simp only [repute_parse, h1, h2]
  · simp only [repute_parse, h1, h3]

set_option maxRecDepth 100000 in
theorem exampleBody_has_no_blank_line :
    hasBlankLine exampleBody = false ∧
      hasBlankLine (exampleHeader ++ ['\n']) = false ∧
      hasBlankLine (exampleHeader ++ ['\r', '\n', '\r']) = false ∧
      exampleHeader.length + 4 + exampleBody.length < 2 ^ 64 := by
  decide

/-- C7 at the spec's preamble example: the HTTP/1.1 header block in front of
the end-to-end body, with either separator, leaves the body for the parser. -/
theorem C7_header_stripping_witness :
    skipHeader exampleBody exampleBody.length = (exampleBody, exampleBody.length) ∧
    skipHeader (exampleHeader ++ '\n' :: '\n' :: exampleBody)
      (exampleHeader ++ '\n' :: '\n' :: exampleBody).length =
        (exampleBody, exampleBody.length) ∧
    skipHeader (exampleHeader ++ '\r' :: '\n' :: '\r' :: '\n' :: exampleBody)
      (exampleHeader ++ '\r' :: '\n' :: '\r' :: '\n' :: exampleBody).length =
        (exampleBody, exampleBody.length) ∧
    ∀ (E : Extern) (junk : ParseLocals) (out : Outputs),
      repute_parse E junk (exampleHeader ++ '\n' :: '\n' :: exampleBody)
          (exampleHeader ++ '\n' :: '\n' :: exampleBody).length out =
        repute_parse E junk exampleBody exampleBody.length out ∧
      repute_parse E junk (exampleHeader ++ '\r' :: '\n' :: '\r' :: '\n' :: exampleBody)
          (exampleHeader ++ '\r' :: '\n' :: '\r' :: '\n' :: exampleBody).length out =
        repute_parse E junk exampleBody exampleBody.length out :=
  C7_header_stripping exampleBody exampleHeader exampleBody_has_no_blank_line.1
    exampleBody_has_no_blank_line.2.1 exampleBody_has_no_blank_line.2.2.1
    exampleBody_has_no_blank_line.2.2.2

/-- C7 as stated fails for a body with a blank line inside: sent alone it is
cut at that blank line, sent after a header block it reaches the parser whole. -/
theorem C7_blank_line_in_body_counterexample :
    skipHeader blankLineBody blankLineBody.length = ("<reputon/></reputation>".toList, 23) ∧
    skipHeader (exampleHeader ++ '\n' :: '\n' :: blankLineBody)
      (exampleHeader ++ '\n' :: '\n' :: blankLineBody).length = (blankLineBody, 37) ∧
    skipHeader blankLineBody blankLineBody.length ≠
      skipHeader (exampleHeader ++ '\n' :: '\n' :: blankLineBody)
        (exampleHeader ++ '\n' :: '\n' :: blankLineBody).length := by
  decide

/-! ### C8: the receive buffer -/

theorem first_write_fills (curl : Nat) (w : List Char) (h : REPUTE_BUFBASE ≤ w.length) :
    repute_curl_writedata true w (freshIo curl) =
      some (w.length, { repute_curl := curl, repute_alloc := w.length,
                        repute_offset := w.length, repute_buf := some w }) := by
  simp [repute_curl_writedata, freshIo, copyIn, Nat.max_eq_right h]

theorem write_to_full_buffer (curl : Nat) (buf w : List Char) (hw : w ≠ []) :
    repute_curl_writedata true w
      { repute_curl := curl, repute_alloc := buf.length, repute_offset := buf.length,
        repute_buf := some buf } = none := by
  have hpos : 0 < w.length := List.length_pos.mpr hw
  have h1 : ¬ (buf.length + w.length < buf.length) := by omega
  have h2 : ¬ (buf.length + w.length ≤ buf.length) := by omega
  simp [repute_curl_writedata, copyIn, h1, h2]

theorem writeAll_overrun (curl : Nat) (w1 w2 : List Char) (h1 : REPUTE_BUFBASE ≤ w1.length)
    (h2 : w2 ≠ []) : writeAll [w1, w2] (freshIo curl) = none := by
  simp [writeAll, first_write_fills curl w1 h1, write_to_full_buffer curl w1 w2 h2]

/-- C8, the code at the failing input: after a first delivery of 1024 bytes
the buffer is full, the growth test `repute_offset + need < repute_alloc` is
false for the next byte, and the copy of that byte lands past the end of the
allocation; the run is not append-preserving. -/
theorem C8_second_write_overruns :
    writeAll [List.replicate 1024 'a', ['b']] (freshIo 0) = none ∧
      ¬ appendPreserving [List.replicate 1024 'a', ['b']] (freshIo 0) := by
  have h : writeAll [List.replicate 1024 'a', ['b']] (freshIo 0) = none :=
    writeAll_overrun 0 _ _ (by rw [List.length_replicate]; exact Nat.le_refl _) (by simp)
  refine ⟨h, ?_⟩
  rintro ⟨io1, hw, _⟩
  rw [h] at hw
  cases hw

/-! ### C9: a failed discovery -/

/-- What `repute_query` does with a failed discovery (lines 725-726): with
whichever status `repute_get_template` fails, the outer query returns the
constant QUERY and leaves the outputs alone. -/
theorem failed_discovery_returns_query (W : World) (locals : QueryLocals)
    (junk : ParseLocals) (rep rep1 : repute_handle) (domain : CStr) (out : Outputs)
    (st : REPUTE_STAT) (hempty : rep.rep_uritemp.head? = some NUL)
    (hT : repute_get_template W rep = some (st, rep1)) (hst : st ≠ REPUTE_STAT_OK) :
    repute_query W locals junk rep domain out = some (REPUTE_STAT_QUERY, rep1, out) := by
  simp [repute_query, hempty, hT, hst]

set_option maxRecDepth 100000 in
theorem get_template_transport_failure :
    repute_get_template transportFailWorld newHandle =
      some (REPUTE_STAT_QUERY, repute_put_io newHandle filledIo) := by
  decide

/-- A discovery that fails in the transfer returns QUERY, and so does the
outer query: this half of the status mapping agrees with the callee. -/
theorem query_transportFailWorld_run :
    repute_get_template transportFailWorld newHandle =
        some (REPUTE_STAT_QUERY, repute_put_io newHandle filledIo) ∧
      repute_query transportFailWorld someLocals someJunk newHandle "example.com".toList
          someOutputs =
        some (REPUTE_STAT_QUERY, repute_put_io newHandle filledIo, someOutputs) :=
  ⟨get_template_transport_failure,
    failed_discovery_returns_query transportFailWorld someLocals someJunk newHandle
      (repute_put_io newHandle filledIo) "example.com".toList someOutputs REPUTE_STAT_QUERY
      (by decide) get_template_transport_failure (by decide)⟩

set_option maxRecDepth 100000 in
theorem query_utFailWorld_run :
    repute_query utFailWorld someLocals someJunk newHandle "example.com".toList someOutputs =
      some (REPUTE_STAT_QUERY, newHandle, someOutputs) := by
  decide

set_option maxRecDepth 100000 in
theorem query_utFailWorld_warm_run :
    repute_query utFailWorld someLocals someJunk warmHandle "example.com".toList someOutputs =
      some (REPUTE_STAT_INTERNAL, warmHandle, someOutputs) := by
  decide

set_option maxRecDepth 100000 in
theorem get_template_mallocFailWorld_run :
    repute_get_template mallocFailWorld newHandle = some (REPUTE_STAT_INTERNAL, newHandle) := by
  decide

set_option maxRecDepth 100000 in
theorem query_mallocFailWorld_run :
    repute_query mallocFailWorld someLocals someJunk newHandle "example.com".toList
        someOutputs =
      some (REPUTE_STAT_QUERY, newHandle, someOutputs) := by
  decide

set_option maxRecDepth 100000 in
theorem query_mallocFailWorld_warm_run :
    repute_query mallocFailWorld someLocals someJunk warmHandle "example.com".toList
        someOutputs =
      some (REPUTE_STAT_INTERNAL, warmHandle, someOutputs) := by
  decide

/-- C9 fails in the code: with a failing `ut_init`, and likewise with a
failing `malloc` in `repute_get_io`, discovery on a new handle returns
INTERNAL and the outer query returns QUERY, not INTERNAL; the same failure in
the query step of a handle with a cached template returns INTERNAL. -/
theorem C9_internal_discovery_error_becomes_query :
    (repute_get_template utFailWorld newHandle = some (REPUTE_STAT_INTERNAL, newHandle) ∧
      repute_query utFailWorld someLocals someJunk newHandle "example.com".toList
          someOutputs =
        some (REPUTE_STAT_QUERY, newHandle, someOutputs) ∧
      repute_query utFailWorld someLocals someJunk warmHandle "example.com".toList
          someOutputs =
        some (REPUTE_STAT_INTERNAL, warmHandle, someOutputs)) ∧
    (repute_get_template mallocFailWorld newHandle =
        some (REPUTE_STAT_INTERNAL, newHandle) ∧
      repute_query mallocFailWorld someLocals someJunk newHandle "example.com".toList
          someOutputs =
        some (REPUTE_STAT_QUERY, newHandle, someOutputs) ∧
      repute_query mallocFailWorld someLocals someJunk warmHandle "example.com".toList
          someOutputs =
        some (REPUTE_STAT_INTERNAL, warmHandle, someOutputs)) :=
  ⟨⟨rfl, query_utFailWorld_run, query_utFailWorld_warm_run⟩,
    get_template_mallocFailWorld_run, query_mallocFailWorld_run,
    query_mallocFailWorld_warm_run⟩

/-! ### C10: closing a handle -/

/-- C10, the code on every valid handle: the first statement
`assert(rep == NULL)` fails, so nothing is released. -/
theorem C10_close_fails_assertion (h : repute_handle) :
    repute_close (some h) = CloseOutcome.assertionFailed ∧
      repute_close (some h) ≠ CloseOutcome.released (releaseAll h.rep_ios) := by
  simp [repute_close]

/-! ### C14: a failed discovery leaves the template alone -/

theorem get_io_keeps_template (W : World) (rep : repute_handle) :
    (repute_get_io W rep).2.rep_uritemp = rep.rep_uritemp := by
  unfold repute_get_io
  cases rep.rep_ios with
  | cons rio rest => rfl
  | nil =>
    simp only
    split
    · rfl
    · cases W.curl_easy_init with
      | none => rfl
      | some curl =>
        simp only
        split <;> rfl

theorem get_template_failure_keeps_template (W : World) (rep rep1 : repute_handle)
    (st : REPUTE_STAT) (h : repute_get_template W rep = some (st, rep1))
    (hst : st ≠ REPUTE_STAT_OK) : rep1.rep_uritemp = rep.rep_uritemp := by
  have hio := get_io_keeps_template W rep
  unfold repute_get_template at h
  split at h
  · cases h; rfl
  · split at h
    · cases h; rfl
    · split at h
      · cases h; rfl
      · split at h
        · rename_i rep2 heq
          cases h
          rw [heq] at hio
          exact hio
        · rename_i rio rep2 heq
          rw [heq] at hio
          split at h
          · cases h; exact hio
          · split at h
            · cases h; exact hio
            · split at h
              · cases h
              · split at h
                · cases h; exact hio
                · split at h
                  · cases h; exact hio
                  · split at h
                    · cases h
                    · cases h
                      exact absurd rfl hst

/-- C14: whenever `repute_get_template` returns a status other than OK, the
template field of the handle is what it was before the call; called on an
empty template it leaves the template empty, and the next `repute_query` on
that handle goes through discovery again. -/
theorem C14_failed_discovery_keeps_template (W W2 : World) (rep rep1 : repute_handle)
    (st : REPUTE_STAT) (locals : QueryLocals) (junk : ParseLocals) (domain : CStr)
    (out : Outputs) (hempty : rep.rep_uritemp.head? = some NUL)
    (h : repute_get_template W rep = some (st, rep1)) (hst : st ≠ REPUTE_STAT_OK) :
    rep1.rep_uritemp = rep.rep_uritemp ∧
    rep1.rep_uritemp.head? = some NUL ∧
    repute_query W2 locals junk rep1 domain out =
      match repute_get_template W2 rep1 with
      | none => none
      | some (tstatus, rep2) =>
        if tstatus ≠ REPUTE_STAT_OK then some (REPUTE_STAT_QUERY, rep2, out)
        else queryWithTemplate W2 locals junk rep2 domain out := by
  have hk := get_template_failure_keeps_template W rep rep1 st h hst
  have he : rep1.rep_uritemp.head? = some NUL := by rw [hk]; exact hempty
  refine ⟨hk, he, ?_⟩
  simp [repute_query, he]

/-- C14 on a run whose discovery fails in the transfer: the template of the
new handle stays empty. -/
theorem C14_failed_discovery_keeps_template_witness :
    (repute_put_io newHandle filledIo).rep_uritemp = newHandle.rep_uritemp ∧
    (repute_put_io newHandle filledIo).rep_uritemp.head? = some NUL :=
  let h := C14_failed_discovery_keeps_template transportFailWorld okWorld newHandle
    (repute_put_io newHandle filledIo) REPUTE_STAT_QUERY someLocals someJunk
    "example.com".toList someOutputs (by decide) get_template_transport_failure (by decide)
  ⟨h.1, h.2.1⟩

/-! ### C15 and C19: the growth test of the receive buffer -/

theorem write_beyond_capacity (mallocOk : Bool) (w buf : List Char) (io : repute_io)
    (hbuf : io.repute_buf = some buf) (hlen : buf.length = io.repute_alloc)
    (hover : io.repute_alloc < io.repute_offset + w.length) :
    repute_curl_writedata mallocOk w io = none := by
  have h1 : ¬ (io.repute_offset + w.length < io.repute_alloc) := by omega
  have h2 : ¬ (io.repute_offset + w.length ≤ buf.length) := by omega
  simp [repute_curl_writedata, hbuf, h1, copyIn, h2]

set_option maxRecDepth 100000 in
theorem noMatchBody_length : noMatchBody.length = 72 := by
  decide

/-- C15, the code at the failing input: a resource with a buffer of capacity
1024 and length 1000 receives 100 bytes; `repute_offset + need` exceeds the
capacity, the growth test `repute_offset + need < repute_alloc` is false, no
`realloc` takes place and the copy runs past the end of the 1024 bytes. -/
theorem C15_no_growth_when_needed :
    nearlyFullIo.repute_alloc < nearlyFullIo.repute_offset + (List.replicate 100 'y').length ∧
    ¬ (nearlyFullIo.repute_offset + (List.replicate 100 'y').length < nearlyFullIo.repute_alloc) ∧
    repute_curl_writedata true (List.replicate 100 'y') nearlyFullIo = none := by
  have hover : nearlyFullIo.repute_alloc <
      nearlyFullIo.repute_offset + (List.replicate 100 'y').length := by
    have e1 : nearlyFullIo.repute_alloc = 1024 := rfl
    have e2 : nearlyFullIo.repute_offset = 1000 := rfl
    rw [e1, e2, List.length_replicate]
    decide
  refine ⟨hover, by omega, ?_⟩
  refine write_beyond_capacity true _ _ nearlyFullIo rfl ?_ hover
  show (List.replicate 1000 'x' ++ List.replicate 24 NUL).length = 1024
  rw [List.length_append, List.length_replicate, List.length_replicate]

/-- C19, the code at the failing input: a resource recycled from the pool
keeps its 1024-byte buffer with length 0; a delivery of 2000 bytes is copied
without growth, so it does not lie inside the allocation and
`repute_offset <= repute_alloc` cannot hold after the call. -/
theorem C19_recycled_buffer_overrun :
    (repute_get_io okWorld (repute_put_io newHandle filledIo)).1 = some recycledIo ∧
    recycledIo.repute_alloc = 1024 ∧
    ¬ (recycledIo.repute_offset + (List.replicate 2000 'a').length ≤ recycledIo.repute_alloc) ∧
    repute_curl_writedata true (List.replicate 2000 'a') recycledIo = none := by
  have hover : recycledIo.repute_alloc <
      recycledIo.repute_offset + (List.replicate 2000 'a').length := by
    have e1 : recycledIo.repute_alloc = 1024 := rfl
    have e2 : recycledIo.repute_offset = 0 := rfl
    rw [e1, e2, List.length_replicate]
    decide
  refine ⟨rfl, rfl, by omega, ?_⟩
  refine write_beyond_capacity true _ _ recycledIo rfl ?_ hover
  show (noMatchBody ++ List.replicate (1024 - noMatchBody.length) NUL).length = 1024
  rw [List.length_append, List.length_replicate, noMatchBody_length]

/-! ### C18: the pool is a stack -/

/-- C18, amended: `repute_put_io(r)` followed by `repute_get_io` returns `r`
with its length reset to zero and everything else unchanged, and leaves the
free list as it was before the put; on an empty free list `repute_get_io`
leaves the list empty and returns a new resource with no buffer, capacity 0
and length 0 when the allocation, `curl_easy_init` and the `curl_easy_setopt`
call succeed, and NULL when one of them fails. -/
theorem C18_pool_is_lifo (W : World) (rep : repute_handle) (r : repute_io) :
    repute_get_io W (repute_put_io rep r) = (some { r with repute_offset := 0 }, rep) ∧
    (rep.rep_ios = [] →
      (∀ curl, W.mallocIo = true → W.curl_easy_init = some curl →
          W.setoptWriteFunction = true →
          repute_get_io W rep = (some (freshIo curl), rep)) ∧
      (W.mallocIo = false ∨ W.curl_easy_init = none ∨ W.setoptWriteFunction = false →
          repute_get_io W rep = (none, rep))) := by
  refine ⟨rfl, fun hempty => ⟨?_, ?_⟩⟩
  · intro curl h1 h2 h3
    simp [repute_get_io, hempty, h1, h2, h3]
  · intro h
    rcases h with h | h | h
    · simp [repute_get_io, hempty, h]
    · simp [repute_get_io, hempty, h]
    · cases hc : W.curl_easy_init <;> simp [repute_get_io, hempty, h, hc]

/-- C18 amended, on the new handle: a put followed by a get returns the
resource with length 0, and a get on the empty pool returns a fresh one. -/
theorem C18_pool_is_lifo_witness :
    repute_get_io okWorld (repute_put_io newHandle filledIo) = (some recycledIo, newHandle) ∧
    repute_get_io okWorld newHandle = (some (freshIo 1), newHandle) :=
  ⟨(C18_pool_is_lifo okWorld newHandle filledIo).1,
    ((C18_pool_is_lifo okWorld newHandle filledIo).2 rfl).1 1 rfl rfl rfl⟩

/-- C18 as stated fails: with a failing `malloc`, `repute_get_io` on the empty
free list returns NULL, not a new resource. -/
theorem C18_get_io_null_counterexample :
    newHandle.rep_ios = [] ∧ repute_get_io mallocFailWorld newHandle = (none, newHandle) :=
  ⟨rfl, rfl⟩

/-! ### C17: malformed integers -/

/-- C17, the code at the failing input: a qualifying reputon whose
sample-size is 2^64 (too large) and whose updated field is "12abc" yields
sample size `ULONG_MAX` and timestamp 12, while the same reputon without the
two fields yields 0 and 0. -/
theorem C17_malformed_integers_are_stored :
    repute_parse (constExtern (reputationDoc [malformedNumbersReputon])) someJunk [] 0
        someOutputs =
      (REPUTE_STAT_OK,
        { rep := CFloat.fin 0, conf := some (CFloat.fin 0),
          sample := some 18446744073709551615, when := some 12 }) ∧
    repute_parse (constExtern (reputationDoc [withoutNumbersReputon])) someJunk [] 0
        someOutputs =
      (REPUTE_STAT_OK,
        { rep := CFloat.fin 0, conf := some (CFloat.fin 0), sample := some 0,
          when := some 0 }) := by
  decide

/-! ### C20: acquired resources are returned -/

theorem get_io_none (W : World) (rep rep1 : repute_handle)
    (h : repute_get_io W rep = (none, rep1)) : rep1 = rep := by
  unfold repute_get_io at h
  split at h
  · cases h
  · split at h
    · cases h; rfl
    · split at h
      · cases h; rfl
      · split at h <;> cases h
        rfl

theorem get_io_ios (W : World) (rep : repute_handle) :
    (repute_get_io W rep).2.rep_ios = rep.rep_ios.drop 1 := by
  unfold repute_get_io
  cases h : rep.rep_ios with
  | cons rio rest => rfl
  | nil =>
    simp only
    split
    · simp [h]
    · cases W.curl_easy_init with
      | none => simp [h]
      | some curl =>
        simp only
        split <;> simp [h]

theorem get_io_head (W : World) (rep : repute_handle) (rio h : repute_io) (t : List repute_io)
    (hio : (repute_get_io W rep).1 = some rio) (hl : rep.rep_ios = h :: t) :
    rio.repute_curl = h.repute_curl := by
  unfold repute_get_io at hio
  rw [hl] at hio
  simp only [Option.some.injEq] at hio
  rw [← hio]

theorem returnedTo_refl (W : World) (a b : repute_handle) (h : b.rep_ios = a.rep_ios) :
    returnedTo W a b := Or.inl h

theorem skipHeaderFrom_lf_here (buf : CStr) (buflen k : Nat) (s : CStr)
    (h : ['\n', '\n'].isPrefixOf s = true) :
    skipHeaderFrom buf buflen k s = (s.drop 2, sizeSub buflen (k + 2)) := by
  cases s with
  | nil => simp [List.isPrefixOf] at h
  | cons c cs =>
    have h1 := (lf_cond_iff c cs).mpr h
    rw [skipHeaderFrom, if_pos h1]
    rfl

theorem skipHeaderFrom_crlf_here (buf : CStr) (buflen k : Nat) (s : CStr)
    (h : ['\r', '\n', '\r', '\n'].isPrefixOf s = true) :
    skipHeaderFrom buf buflen k s = (s.drop 4, sizeSub buflen (k + 4)) := by
  cases s with
  | nil => simp [List.isPrefixOf] at h
  | cons c cs =>
    have h2 := (crlf_cond_iff c cs).mpr h
    have h1 : ¬ (c = '\n' ∧ cs.head? = some '\n') := by
      rintro ⟨hc, _⟩
      rw [h2.1] at hc
      exact absurd hc (by decide)
    rw [skipHeaderFrom, if_neg h1, if_pos h2]
    rfl

theorem skipHeaderFrom_first (buf : CStr) (buflen : Nat) (i : Nat) (s : CStr) (k : Nat)
    (h : firstBlankAt s i) :
    (['\n', '\n'].isPrefixOf (s.drop i) = true →
      skipHeaderFrom buf buflen k s = (s.drop (i + 2), sizeSub buflen (k + i + 2))) ∧
    (['\r', '\n', '\r', '\n'].isPrefixOf (s.drop i) = true →
      skipHeaderFrom buf buflen k s = (s.drop (i + 4), sizeSub buflen (k + i + 4))) := by
  induction i generalizing s k with
  | zero =>
    constructor
    · intro hp
      rw [List.drop_zero] at hp
      rw [skipHeaderFrom_lf_here buf buflen k s hp]
    · intro hp
      rw [List.drop_zero] at hp
      rw [skipHeaderFrom_crlf_here buf buflen k s hp]
  | succ i ih =>
    obtain ⟨hb, hmin⟩ := h
    cases s with
    | nil => simp [startsBlank, List.isPrefixOf] at hb
    | cons c cs =>
      have h0 : startsBlank (c :: cs) = false := by
        have := hmin 0 (Nat.succ_pos i)
        simpa using this
      have hcs : firstBlankAt cs i := by
        refine ⟨by simpa using hb, fun j hj => ?_⟩
        have := hmin (j + 1) (Nat.succ_lt_succ hj)
        simpa using this
      have hi := ih cs (k + 1) hcs
      rw [skipHeaderFrom_step buf buflen k c cs h0]
      constructor
      · intro hp
        have hp' : ['\n', '\n'].isPrefixOf (cs.drop i) = true := by simpa using hp
        rw [hi.1 hp']
        simp only [List.drop_succ_cons]
        congr 2
        omega
      · intro hp
        have hp' : ['\r', '\n', '\r', '\n'].isPrefixOf (cs.drop i) = true := by simpa using hp
        rw [hi.2 hp']
        simp only [List.drop_succ_cons]
        congr 2
        omega

theorem hasBlankLine_false_of_drop (s : CStr) (h : ∀ i, startsBlank (s.drop i) = false) :
    hasBlankLine s = false := by
  induction s with
  | nil => rfl
  | cons c cs ih =>
    simp only [hasBlankLine, Bool.or_eq_false_iff]
    refine ⟨by simpa using h 0, ih (fun i => ?_)⟩
    simpa using h (i + 1)

theorem isPrefixOf_length (p s : CStr) (h : p.isPrefixOf s = true) : p.length ≤ s.length := by
  induction p generalizing s with
  | nil => simp
  | cons a p ih =>
    cases s with
    | nil => simp [List.isPrefixOf] at h
    | cons b s =>
      simp only [List.isPrefixOf, Bool.and_eq_true] at h
      simp only [List.length_cons]
      exact Nat.succ_le_succ (ih s h.2)

theorem sizeSub_le (a b : Nat) (ha : a < 2 ^ 64) (hb : b ≤ a) : sizeSub a b = a - b := by
  have := sizeSub_exact b (a - b) (by omega)
  rwa [Nat.add_sub_cancel' hb] at this

/-- C16: on an input of length `buflen` (below 2^64), if `i` is the smallest
index at which the input continues with LF LF or CR LF CR LF, the scan hands
the parser the bytes after that separator with length `buflen - (i + 2)`,
respectively `buflen - (i + 4)`; if there is no such index it hands over the
input and `buflen` unchanged. -/
theorem C16_header_scan_finds_first (buf : CStr) (hlen : buf.length < 2 ^ 64) :
    (∀ i, firstBlankAt buf i →
      (['\n', '\n'].isPrefixOf (buf.drop i) = true →
        skipHeader buf buf.length = (buf.drop (i + 2), buf.length - (i + 2))) ∧
      (['\r', '\n', '\r', '\n'].isPrefixOf (buf.drop i) = true →
        skipHeader buf buf.length = (buf.drop (i + 4), buf.length - (i + 4)))) ∧
    ((∀ i, startsBlank (buf.drop i) = false) →
      skipHeader buf buf.length = (buf, buf.length)) := by
  refine ⟨fun i hi => ⟨fun hp => ?_, fun hp => ?_⟩, fun hno => ?_⟩
  · have hl := isPrefixOf_length _ _ hp
    simp only [List.length_drop, List.length_cons, List.length_nil] at hl
    unfold skipHeader
    rw [(skipHeaderFrom_first buf buf.length i buf 0 hi).1 hp, Nat.zero_add,
      sizeSub_le _ _ hlen (by omega)]
  · have hl := isPrefixOf_length _ _ hp
    simp only [List.length_drop, List.length_cons, List.length_nil] at hl
    unfold skipHeader
    rw [(skipHeaderFrom_first buf buf.length i buf 0 hi).2 hp, Nat.zero_add,
      sizeSub_le _ _ hlen (by omega)]
  · exact skipHeaderFrom_no_blank buf buf.length buf 0 (hasBlankLine_false_of_drop buf hno)

/-- C16 on an input with two blank lines: the scan stops at the first one, at
index 7, and hands over the nine bytes after it. -/
theorem C16_header_scan_finds_first_witness :
    skipHeader twoSeparators twoSeparators.length = ("<a>\n\n</a>".toList, 9) :=
  (((C16_header_scan_finds_first twoSeparators (by decide)).1 7
    ⟨by decide, by decide⟩).2 (by decide)).trans (by decide)

/-! ### C13: a defective rating or confidence leaves the other fields alone -/

theorem strcasecmp_both (b1 : CStr) :
    ∀ (a b2 : CStr), strcasecmp a b1 = 0 → strcasecmp a b2 = 0 →
      (∀ c ∈ b1, c.toLower.toNat ≠ 0) → (∀ c ∈ b2, c.toLower.toNat ≠ 0) →
      b1.map Char.toLower = b2.map Char.toLower := by
  induction b1 with
  | nil =>
    intro a b2 h1 h2 _ hn2
    cases b2 with
    | nil => rfl
    | cons c2 b2 =>
      exfalso
      have hc2 := hn2 c2 (by simp)
      cases a with
      | nil =>
        simp only [strcasecmp] at h2
        omega
      | cons a0 a =>
        simp only [strcasecmp] at h1
        obtain ⟨_, _, hcons, hl⟩ := strcasecmp_head (a0 :: a) c2 b2 h2 hc2
        cases hcons
        rw [hl] at h1
        omega
  | cons c1 b1 ih =>
    intro a b2 h1 h2 hn1 hn2
    have hc1 := hn1 c1 (by simp)
    obtain ⟨a0, a', rfl, hl1⟩ := strcasecmp_head a c1 b1 h1 hc1
    simp only [strcasecmp, hl1, if_true] at h1
    cases b2 with
    | nil =>
      exfalso
      simp only [strcasecmp] at h2
      rw [hl1] at h2
      omega
    | cons c2 b2 =>
      have hc2 := hn2 c2 (by simp)
      obtain ⟨_, _, hcons, hl2⟩ := strcasecmp_head (a0 :: a') c2 b2 h2 hc2
      cases hcons
      simp only [strcasecmp, hl2, if_true] at h2
      simp only [List.map_cons, List.cons.injEq]
      exact ⟨hl1.symm.trans hl2,
        ih a' b2 h1 h2 (fun c hc => hn1 c (by simp [hc])) (fun c hc => hn2 c (by simp [hc]))⟩

theorem strcasecmp_other (a b1 b2 : CStr) (h : strcasecmp a b1 = 0)
    (hn1 : ∀ c ∈ b1, c.toLower.toNat ≠ 0) (hn2 : ∀ c ∈ b2, c.toLower.toNat ≠ 0)
    (hne : b1.map Char.toLower ≠ b2.map Char.toLower) : strcasecmp a b2 ≠ 0 :=
  fun h2 => hne (strcasecmp_both b1 a b2 h h2 hn1 hn2)

theorem code_of_rating (n : CStr) (h : strcasecmp n REPUTE_XML_RATING = 0) :
    repute_name_to_code repute_lookup_elements n = REPUTE_XML_CODE_RATING := by
  have h1 := strcasecmp_other n _ REPUTE_XML_ASSERTION h (by decide) (by decide) (by decide)
  have h2 := strcasecmp_other n _ REPUTE_XML_EXTENSION h (by decide) (by decide) (by decide)
  have h3 := strcasecmp_other n _ REPUTE_XML_RATED h (by decide) (by decide) (by decide)
  have h4 := strcasecmp_other n _ REPUTE_XML_RATER h (by decide) (by decide) (by decide)
  have h5 := strcasecmp_other n _ REPUTE_XML_RATER_AUTH h (by decide) (by decide) (by decide)
  simp only [repute_name_to_code, repute_lookup_elements]
  rw [if_neg h1, if_neg h2, if_neg h3, if_neg h4, if_neg h5, if_pos h]

theorem code_of_rater_auth (n : CStr) (h : strcasecmp n REPUTE_XML_RATER_AUTH = 0) :
    repute_name_to_code repute_lookup_elements n = REPUTE_XML_CODE_RATER_AUTH := by
  have h1 := strcasecmp_other n _ REPUTE_XML_ASSERTION h (by decide) (by decide) (by decide)
  have h2 := strcasecmp_other n _ REPUTE_XML_EXTENSION h (by decide) (by decide) (by decide)
  have h3 := strcasecmp_other n _ REPUTE_XML_RATED h (by decide) (by decide) (by decide)
  have h4 := strcasecmp_other n _ REPUTE_XML_RATER h (by decide) (by decide) (by decide)
  simp only [repute_name_to_code, repute_lookup_elements]
  rw [if_neg h1, if_neg h2, if_neg h3, if_neg h4, if_pos h]

theorem fieldStep_eraseRep (E : Extern) (st : ParseLocals) (r : CFloat) (g : xmlNode) :
    eraseRep (fieldStep E { st with reptmp := r } g) = eraseRep (fieldStep E st g) := by
  obtain ⟨name, type, content, children⟩ := g
  cases name with
  | none => rfl
  | some n =>
    cases children with
    | nil => cases type <;> rfl
    | cons child rest =>
      cases hc : child.content with
      | none =>
        cases type <;> simp [fieldStep, xmlNode.name, xmlNode.type, xmlNode.children, hc, eraseRep]
      | some text =>
        cases type <;> try rfl
        cases hk : repute_name_to_code repute_lookup_elements n <;>
          simp only [fieldStep, xmlNode.name, xmlNode.type, xmlNode.children, hc, hk] <;>
          (try split_ifs) <;>
          rfl

theorem fieldStep_eraseConf (E : Extern) (st : ParseLocals) (r : CFloat) (g : xmlNode) :
    eraseConf (fieldStep E { st with conftmp := r } g) = eraseConf (fieldStep E st g) := by
  obtain ⟨name, type, content, children⟩ := g
  cases name with
  | none => rfl
  | some n =>
    cases children with
    | nil => cases type <;> rfl
    | cons child rest =>
      cases hc : child.content with
      | none =>
        cases type <;> simp [fieldStep, xmlNode.name, xmlNode.type, xmlNode.children, hc, eraseConf]
      | some text =>
        cases type <;> try rfl
        cases hk : repute_name_to_code repute_lookup_elements n <;>
          simp only [fieldStep, xmlNode.name, xmlNode.type, xmlNode.children, hc, hk] <;>
          (try split_ifs) <;>
          rfl

theorem fieldStep_eraseRep_congr (E : Extern) (st st1 : ParseLocals) (g : xmlNode)
    (h : eraseRep st = eraseRep st1) :
    eraseRep (fieldStep E st g) = eraseRep (fieldStep E st1 g) := by
  have e1 := fieldStep_eraseRep E (eraseRep st) st.reptmp g
  have e2 := fieldStep_eraseRep E (eraseRep st1) st1.reptmp g
  have s1 : { eraseRep st with reptmp := st.reptmp } = st := rfl
  have s2 : { eraseRep st1 with reptmp := st1.reptmp } = st1 := rfl
  rw [s1] at e1
  rw [s2] at e2
  rw [e1, e2, h]

theorem fieldStep_eraseConf_congr (E : Extern) (st st1 : ParseLocals) (g : xmlNode)
    (h : eraseConf st = eraseConf st1) :
    eraseConf (fieldStep E st g) = eraseConf (fieldStep E st1 g) := by
  have e1 := fieldStep_eraseConf E (eraseConf st) st.conftmp g
  have e2 := fieldStep_eraseConf E (eraseConf st1) st1.conftmp g
  have s1 : { eraseConf st with conftmp := st.conftmp } = st := rfl
  have s2 : { eraseConf st1 with conftmp := st1.conftmp } = st1 := rfl
  rw [s1] at e1
  rw [s2] at e2
  rw [e1, e2, h]

theorem scanFields_eraseRep_congr (E : Extern) (fs : List xmlNode) (st st1 : ParseLocals)
    (h : eraseRep st = eraseRep st1) :
    eraseRep (scanFields E st fs) = eraseRep (scanFields E st1 fs) := by
  induction fs generalizing st st1 with
  | nil => exact h
  | cons g fs ih => exact ih _ _ (fieldStep_eraseRep_congr E st st1 g h)

theorem scanFields_eraseConf_congr (E : Extern) (fs : List xmlNode) (st st1 : ParseLocals)
    (h : eraseConf st = eraseConf st1) :
    eraseConf (scanFields E st fs) = eraseConf (scanFields E st1 fs) := by
  induction fs generalizing st st1 with
  | nil => exact h
  | cons g fs ih => exact ih _ _ (fieldStep_eraseConf_congr E st st1 g h)

theorem scanFields_append (E : Extern) (st : ParseLocals) (l1 l2 : List xmlNode) :
    scanFields E st (l1 ++ l2) = scanFields E (scanFields E st l1) l2 := by
  simp [scanFields, List.foldl_append]

theorem fieldStep_defectiveRating (E : Extern) (st : ParseLocals) (f : xmlNode)
    (h : defectiveRating E f) : eraseRep (fieldStep E st f) = eraseRep st := by
  obtain ⟨⟨hty, n, hn, hm⟩, text, htext, _⟩ := h
  obtain ⟨name, type, content, children⟩ := f
  simp only [xmlNode.name, xmlNode.type] at hn hty
  subst hn hty
  cases children with
  | nil => simp [fieldText, xmlNode.children] at htext
  | cons child rest =>
    simp only [fieldText, xmlNode.children] at htext
    simp only [fieldStep, xmlNode.name, xmlNode.type, xmlNode.children, htext,
      code_of_rating n hm]
    split_ifs <;> rfl

theorem fieldStep_defectiveConfidence (E : Extern) (st : ParseLocals) (f : xmlNode)
    (h : defectiveConfidence E f) : eraseConf (fieldStep E st f) = eraseConf st := by
  obtain ⟨⟨hty, n, hn, hm⟩, text, htext, hout⟩ := h
  obtain ⟨name, type, content, children⟩ := f
  simp only [xmlNode.name, xmlNode.type] at hn hty
  subst hn hty
  cases children with
  | nil => simp [fieldText, xmlNode.children] at htext
  | cons child rest =>
    simp only [fieldText, xmlNode.children] at htext
    have hcond : (E.strtof text).2 ≠ [] ∨ CFloat.lt (E.strtof text).1 (CFloat.fin 0) = true ∨
        CFloat.gt (E.strtof text).1 (CFloat.fin 1) = true := Or.inr hout
    simp only [fieldStep, xmlNode.name, xmlNode.type, xmlNode.children, htext,
      code_of_rater_auth n hm, if_pos hcond]
    rfl

theorem scan_without_defectiveRating (E : Extern) (fpre fpost : List xmlNode) (f : xmlNode)
    (h : defectiveRating E f) :
    eraseRep (scanFields E freshLocals (fpre ++ f :: fpost)) =
      eraseRep (scanFields E freshLocals (fpre ++ fpost)) := by
  rw [scanFields_append, scanFields_append]
  exact scanFields_eraseRep_congr E fpost _ _ (fieldStep_defectiveRating E _ f h)

theorem scan_without_defectiveConfidence (E : Extern) (fpre fpost : List xmlNode) (f : xmlNode)
    (h : defectiveConfidence E f) :
    eraseConf (scanFields E freshLocals (fpre ++ f :: fpost)) =
      eraseConf (scanFields E freshLocals (fpre ++ fpost)) := by
  rw [scanFields_append, scanFields_append]
  exact scanFields_eraseConf_congr E fpost _ _ (fieldStep_defectiveConfidence E _ f h)

theorem scanReputons_any_locals (E : Extern) (out : Outputs) (nodes : List xmlNode)
    (st st1 : ParseLocals) : scanReputons E st out nodes = scanReputons E st1 out nodes := by
  induction nodes generalizing st st1 with
  | nil => rfl
  | cons n ns ih =>
    simp only [scanReputons, resetLocals_eq]
    split
    · exact ih st st1
    · rfl

theorem skipNode_mk (nm : Option CStr) (ty : xmlElementType) (ct : Option CStr)
    (l : List xmlNode) :
    skipNode (xmlNode.mk nm ty ct l) = (skipNode (xmlNode.mk nm ty ct [textNode []]) || l.isEmpty) := by
  cases nm with
  | none => rfl
  | some n =>
    simp only [skipNode, xmlNode.name, xmlNode.type, xmlNode.children, List.isEmpty_cons,
      Bool.or_false]

theorem scanReputons_node_removed (E : Extern) (e : ParseLocals → ParseLocals)
    (Q : Outputs → Outputs → Prop) (hQ : ∀ o, Q o o)
    (hflags : ∀ a b, e a = e b → a.found_dkim = b.found_dkim ∧ a.found_spam = b.found_spam)
    (hwrite : ∀ a b out, e a = e b → Q (writeOutputs a out) (writeOutputs b out))
    (out : Outputs) (nm : Option CStr) (ty : xmlElementType) (ct : Option CStr)
    (l l1 : List xmlNode) (post : List xmlNode) (st st1 : ParseLocals)
    (hl : e (scanFields E freshLocals l) = e (scanFields E freshLocals l1)) :
    Q (scanReputons E st out (xmlNode.mk nm ty ct l :: post))
      (scanReputons E st1 out (xmlNode.mk nm ty ct l1 :: post)) := by
  obtain ⟨hd, hs⟩ := hflags _ _ hl
  have hrest : ∀ a b, Q (scanReputons E a out post) (scanReputons E b out post) := by
    intro a b
    rw [scanReputons_any_locals E out post a b]
    exact hQ _
  have hfresh : ¬ ((scanFields E freshLocals []).found_dkim = true ∧
      (scanFields E freshLocals []).found_spam = true) := by
    simp [scanFields, freshLocals]
  simp only [scanReputons, resetLocals_eq, xmlNode.children]
  rw [skipNode_mk nm ty ct l, skipNode_mk nm ty ct l1]
  cases hbase : skipNode (xmlNode.mk nm ty ct [textNode []])
  · simp only [Bool.false_or]
    cases l with
    | nil =>
      simp only [List.isEmpty_nil, if_true]
      cases l1 with
      | nil => simp only [List.isEmpty_nil, if_true]; exact hrest _ _
      | cons g gs =>
        simp only [List.isEmpty_cons, Bool.false_eq_true, if_false]
        rw [← hd, ← hs, if_neg hfresh]
        exact hrest _ _
    | cons g gs =>
      simp only [List.isEmpty_cons, Bool.false_eq_true, if_false]
      cases l1 with
      | nil =>
        simp only [List.isEmpty_nil, if_true]
        rw [hd, hs, if_neg hfresh]
        exact hrest _ _
      | cons g1 gs1 =>
        simp only [List.isEmpty_cons, Bool.false_eq_true, if_false]
        rw [hd, hs]
        split
        · exact hwrite _ _ out hl
        · exact hrest _ _
  · simp only [Bool.true_or, if_true]
    exact hrest _ _

theorem scanReputons_removed (E : Extern) (e : ParseLocals → ParseLocals)
    (Q : Outputs → Outputs → Prop) (hQ : ∀ o, Q o o)
    (hflags : ∀ a b, e a = e b → a.found_dkim = b.found_dkim ∧ a.found_spam = b.found_spam)
    (hwrite : ∀ a b out, e a = e b → Q (writeOutputs a out) (writeOutputs b out))
    (out : Outputs) (nm : Option CStr) (ty : xmlElementType) (ct : Option CStr)
    (l l1 : List xmlNode) (pre post : List xmlNode) (st st1 : ParseLocals)
    (hl : e (scanFields E freshLocals l) = e (scanFields E freshLocals l1)) :
    Q (scanReputons E st out (pre ++ xmlNode.mk nm ty ct l :: post))
      (scanReputons E st1 out (pre ++ xmlNode.mk nm ty ct l1 :: post)) := by
  induction pre generalizing st st1 with
  | nil => exact scanReputons_node_removed E e Q hQ hflags hwrite out nm ty ct l l1 post st st1 hl
  | cons p ps ih =>
    simp only [List.cons_append, scanReputons, resetLocals_eq]
    split
    · exact ih st st1
    · split
      · exact hQ _
      · exact ih _ _

theorem eraseRep_eq (a b : ParseLocals) (h : eraseRep a = eraseRep b) :
    a.found_dkim = b.found_dkim ∧ a.found_spam = b.found_spam ∧ a.conftmp = b.conftmp ∧
      a.sampletmp = b.sampletmp ∧ a.whentmp = b.whentmp := by
  obtain ⟨d, s, c, r, n, w⟩ := a
  obtain ⟨d1, s1, c1, r1, n1, w1⟩ := b
  simp only [eraseRep, ParseLocals.mk.injEq] at h
  exact ⟨h.1, h.2.1, h.2.2.1, h.2.2.2.2.1, h.2.2.2.2.2⟩

theorem eraseConf_eq (a b : ParseLocals) (h : eraseConf a = eraseConf b) :
    a.found_dkim = b.found_dkim ∧ a.found_spam = b.found_spam ∧ a.reptmp = b.reptmp ∧
      a.sampletmp = b.sampletmp ∧ a.whentmp = b.whentmp := by
  obtain ⟨d, s, c, r, n, w⟩ := a
  obtain ⟨d1, s1, c1, r1, n1, w1⟩ := b
  simp only [eraseConf, ParseLocals.mk.injEq] at h
  exact ⟨h.1, h.2.1, h.2.2.2.1, h.2.2.2.2.1, h.2.2.2.2.2⟩

theorem removed_rating_agree (E : Extern) (out : Outputs) (nm : Option CStr)
    (ty : xmlElementType) (ct : Option CStr) (fpre fpost pre post : List xmlNode) (f : xmlNode)
    (st st1 : ParseLocals) (h : defectiveRating E f) :
    agreeExceptRating
      (scanReputons E st out (pre ++ xmlNode.mk nm ty ct (fpre ++ f :: fpost) :: post))
      (scanReputons E st1 out (pre ++ xmlNode.mk nm ty ct (fpre ++ fpost) :: post)) := by
  refine scanReputons_removed E eraseRep agreeExceptRating (fun o => ⟨rfl, rfl, rfl⟩)
    (fun a b hab => ⟨(eraseRep_eq a b hab).1, (eraseRep_eq a b hab).2.1⟩) ?_
    out nm ty ct _ _ pre post st st1 (scan_without_defectiveRating E fpre fpost f h)
  intro a b o hab
  obtain ⟨_, _, hc, hn, hw⟩ := eraseRep_eq a b hab
  simp only [agreeExceptRating, writeOutputs, hc, hn, hw, and_self]

theorem removed_confidence_agree (E : Extern) (out : Outputs) (nm : Option CStr)
    (ty : xmlElementType) (ct : Option CStr) (fpre fpost pre post : List xmlNode) (f : xmlNode)
    (st st1 : ParseLocals) (h : defectiveConfidence E f) :
    agreeExceptConfidence
      (scanReputons E st out (pre ++ xmlNode.mk nm ty ct (fpre ++ f :: fpost) :: post))
      (scanReputons E st1 out (pre ++ xmlNode.mk nm ty ct (fpre ++ fpost) :: post)) := by
  refine scanReputons_removed E eraseConf agreeExceptConfidence (fun o => ⟨rfl, rfl, rfl⟩)
    (fun a b hab => ⟨(eraseConf_eq a b hab).1, (eraseConf_eq a b hab).2.1⟩) ?_
    out nm ty ct _ _ pre post st st1 (scan_without_defectiveConfidence E fpre fpost f h)
  intro a b o hab
  obtain ⟨_, _, hr, hn, hw⟩ := eraseConf_eq a b hab
  simp only [agreeExceptConfidence, writeOutputs, hr, hn, hw, and_self]

/-- C13: take a document in which a qualifying reputon carries a rating
outside [-1, 1] or a rater-authenticity outside [0, 1], and the same document
with that field removed.  `repute_parse` returns OK on both, the code accepts
the reputon with the defective field (it is not skipped and both matches are
found), and the two results agree on sample size, timestamp and, of rating
and confidence, on the one that is not the defective field. -/
theorem C13_defective_field_is_local (E : Extern) (hE : StrtofSkipsLetterS E)
    (junk : ParseLocals) (buf1 buf2 : CStr) (len1 len2 : Nat) (out : Outputs)
    (doc1 doc2 : xmlDoc) (root1 root2 : xmlNode) (name1 name2 : CStr)
    (pre post fpre fpost : List xmlNode) (f : xmlNode)
    (nm : Option CStr) (ty : xmlElementType) (ct : Option CStr)
    (hdoc1 : E.xmlParseMemory (skipHeader buf1 len1).1 (skipHeader buf1 len1).2 = some doc1)
    (hroot1 : xmlDocGetRootElement doc1 = some root1)
    (hname1 : root1.name = some name1) (hmatch1 : strcasecmp name1 REPUTE_NAME_REPUTATION = 0)
    (hch1 : root1.children = pre ++ xmlNode.mk nm ty ct (fpre ++ f :: fpost) :: post)
    (hdoc2 : E.xmlParseMemory (skipHeader buf2 len2).1 (skipHeader buf2 len2).2 = some doc2)
    (hroot2 : xmlDocGetRootElement doc2 = some root2)
    (hname2 : root2.name = some name2) (hmatch2 : strcasecmp name2 REPUTE_NAME_REPUTATION = 0)
    (hch2 : root2.children = pre ++ xmlNode.mk nm ty ct (fpre ++ fpost) :: post)
    (hq : qualifies (xmlNode.mk nm ty ct (fpre ++ f :: fpost))) :
    (repute_parse E junk buf1 len1 out).1 = REPUTE_STAT_OK ∧
    (repute_parse E junk buf2 len2 out).1 = REPUTE_STAT_OK ∧
    (skipNode (xmlNode.mk nm ty ct (fpre ++ f :: fpost)) = false ∧
      (scanFields E freshLocals (fpre ++ f :: fpost)).found_dkim = true ∧
      (scanFields E freshLocals (fpre ++ f :: fpost)).found_spam = true) ∧
    (defectiveRating E f →
      agreeExceptRating (repute_parse E junk buf1 len1 out).2
        (repute_parse E junk buf2 len2 out).2) ∧
    (defectiveConfidence E f →
      agreeExceptConfidence (repute_parse E junk buf1 len1 out).2
        (repute_parse E junk buf2 len2 out).2) := by
  have p1 := parse_accepted E junk buf1 len1 out doc1 root1 name1 hdoc1 hroot1 hname1 hmatch1
    (by rw [hch1]; simp)
  have p2 := parse_accepted E junk buf2 len2 out doc2 root2 name2 hdoc2 hroot2 hname2 hmatch2
    (by rw [hch2]; simp)
  rw [p1, p2, hch1, hch2]
  refine ⟨rfl, rfl, (accepts_iff_qualifies E hE _).mpr hq, fun h => ?_, fun h => ?_⟩
  · exact removed_rating_agree E out nm ty ct fpre fpost pre post f _ _ h
  · exact removed_confidence_agree E out nm ty ct fpre fpost pre post f _ _ h

theorem strtofDecimal_skips (E : Extern) (h : E.strtof = strtofDecimal) :
    StrtofSkipsLetterS E := by
  intro c cs hc
  rw [h]
  rcases toLower_eq_s c hc with rfl | rfl <;>
    simp [strtofDecimal, skipSpace, isspace, hasMinus, dropSign, readDigits]

theorem ratingFive_defective : defectiveRating twoDocExtern ratingFive :=
  ⟨⟨rfl, REPUTE_XML_RATING, rfl, by decide⟩, "5".toList, rfl, Or.inr (by decide)⟩

/-- C13 on a reputon with the rating 5: with and without that field the
parse returns the same confidence, sample size and timestamp. -/
theorem C13_defective_field_is_local_witness :
    agreeExceptRating
      (repute_parse twoDocExtern someJunk "with".toList 4 someOutputs).2
      (repute_parse twoDocExtern someJunk "without".toList 7 someOutputs).2 :=
  (C13_defective_field_is_local twoDocExtern (strtofDecimal_skips _ rfl) someJunk
    "with".toList "without".toList 4 7 someOutputs _ _ _ _ REPUTE_NAME_REPUTATION
    REPUTE_NAME_REPUTATION [] [] fieldsBeforeRating fieldsAfterRating ratingFive
    (some REPUTE_NAME_REPUTON) xmlElementType.XML_ELEMENT_NODE none
    rfl rfl rfl (by decide) rfl rfl rfl rfl (by decide) rfl
    ((accepts_iff_qualifies twoDocExtern (strtofDecimal_skips _ rfl) _).mp (by decide))).2.2.2.1
    ratingFive_defective

/-! ### C12: pool integrity under interleaving -/

theorem poolStep_nodup (s t : PoolState) (hstep : PoolStep s t) (h : (liveIds s).Nodup) :
    (liveIds t).Nodup := by
  cases hstep with
  | acquire W c rio rep1 hget hfresh =>
    have hios : rep1.rep_ios = s.rep.rep_ios.drop 1 := by
      have := get_io_ios W s.rep
      rw [hget] at this
      exact this
    have hio : (repute_get_io W s.rep).1 = some rio := by rw [hget]
    simp only [liveIds, List.map_cons] at h ⊢
    rw [hios]
    cases hl : s.rep.rep_ios with
    | nil =>
      have hf := hfresh hl
      simp only [liveIds, hl, List.map_nil, List.nil_append] at hf
      rw [hl] at h
      simp only [List.drop_nil, List.map_nil, List.nil_append] at h ⊢
      exact List.nodup_cons.mpr ⟨hf, h⟩
    | cons hd tl =>
      have hc := get_io_head W s.rep rio hd tl hio hl
      rw [hl] at h
      simp only [List.drop_succ_cons, List.drop_zero, List.map_cons, List.cons_append] at h ⊢
      rw [hc]
      exact (List.perm_middle.nodup_iff).mpr h
  | acquireFailed W rep1 hget =>
    have := get_io_none W s.rep rep1 hget
    subst this
    exact h
  | release c rio rio1 pre post hheld hsame =>
    simp only [liveIds, repute_put_io, List.map_cons, List.cons_append, hheld, List.map_append,
      hsame] at h ⊢
    rw [← List.append_assoc] at h ⊢
    exact (List.perm_middle.nodup_iff).mp h

theorem reachable_nodup (s : PoolState) (h : Reachable s) : (liveIds s).Nodup := by
  induction h with
  | init rep hempty => simp [liveIds, hempty]
  | step s t _ hstep ih => exact poolStep_nodup s t hstep ih

/-- C12: in every pool state that an interleaving of atomic acquire and
release steps reaches, no resource is held twice, so no two callers hold the
same resource; no held resource is on the free list; and the free list
contains no resource twice. -/
theorem C12_pool_integrity (s : PoolState) (h : Reachable s) :
    (∀ c1 c2 r1 r2, (c1, r1) ∈ s.held → (c2, r2) ∈ s.held →
      r1.repute_curl = r2.repute_curl → c1 = c2 ∧ r1 = r2) ∧
    (s.held.map (fun p => p.2.repute_curl)).Nodup ∧
    (∀ p ∈ s.held, ∀ r ∈ s.rep.rep_ios, r.repute_curl ≠ p.2.repute_curl) ∧
    (s.rep.rep_ios.map (fun r => r.repute_curl)).Nodup := by
  have hn := reachable_nodup s h
  simp only [liveIds] at hn
  obtain ⟨hfree, hheld, hdisj⟩ := List.nodup_append.mp hn
  refine ⟨fun c1 c2 r1 r2 h1 h2 he => ?_, hheld, fun p hp r hr he => ?_, hfree⟩
  · have := List.inj_on_of_nodup_map hheld h1 h2 he
    exact ⟨congrArg Prod.fst this, congrArg Prod.snd this⟩
  · exact hdisj (List.mem_map.mpr ⟨r, hr, rfl⟩) (List.mem_map.mpr ⟨p, hp, he.symm⟩)

theorem poolAfterThreeSteps_reachable : Reachable poolAfterThreeSteps := by
  have s0 : Reachable { rep := newHandle, held := [] } := Reachable.init newHandle rfl
  have s1 : Reachable { rep := newHandle, held := [(1, freshIo 1)] } :=
    Reachable.step _ _ s0
      (PoolStep.acquire { rep := newHandle, held := [] } okWorld 1 (freshIo 1) newHandle rfl
        (fun _ => by decide))
  have s2 : Reachable { rep := newHandle, held := [(2, freshIo 2), (1, freshIo 1)] } :=
    Reachable.step _ _ s1
      (PoolStep.acquire { rep := newHandle, held := [(1, freshIo 1)] } secondInitWorld 2
        (freshIo 2) newHandle rfl (fun _ => by decide))
  exact Reachable.step _ _ s2
    (PoolStep.release { rep := newHandle, held := [(2, freshIo 2), (1, freshIo 1)] } 1
      (freshIo 1) filledIo [(2, freshIo 2)] [] rfl rfl)

/-- C12 on the pool after two acquisitions and one release: the resource
caller 2 holds is not the one on the free list. -/
theorem C12_pool_integrity_witness :
    Reachable poolAfterThreeSteps ∧
    ∀ p ∈ poolAfterThreeSteps.held, ∀ r ∈ poolAfterThreeSteps.rep.rep_ios,
      r.repute_curl ≠ p.2.repute_curl :=
  ⟨poolAfterThreeSteps_reachable,
    (C12_pool_integrity poolAfterThreeSteps poolAfterThreeSteps_reachable).2.2.1⟩

/-! ### C11: what discovery caches -/

theorem cstringOf_no_nul (buf B : List Char) (h : cstringOf buf = some B) :
    ∀ c ∈ B, c ≠ NUL := by
  unfold cstringOf at h
  split at h
  · cases h
    intro c hc
    have := List.mem_takeWhile_imp hc
    simpa using this
  · cases h

theorem takeWhile_stop (p : Char → Bool) (xs ys : List Char) (y : Char)
    (hx : ∀ c ∈ xs, p c = true) (hy : p y = false) :
    (xs ++ y :: ys).takeWhile p = xs := by
  rw [List.takeWhile_append_of_pos hx, List.takeWhile_cons_of_neg (by simp [hy])]
  simp

theorem storeTemplate_short (field : List Char) (rio : repute_io) (buf B : List Char)
    (hbuf : rio.repute_buf = some buf) (hB : cstringOf buf = some B)
    (hoff : rio.repute_offset = B.length) (hne : B ≠ []) (hlen : B.length ≤ REPUTE_URL) :
    ∃ field1, storeTemplate field rio = some field1 ∧
      field1.takeWhile (fun c => decide (c ≠ NUL)) =
        if B.getLast? = some '\n' then B.dropLast else B := by
  have hnul := cstringOf_no_nul buf B hB
  rcases List.eq_nil_or_concat B with h | ⟨pre, l, hconcat⟩
  · exact absurd h hne
  · rw [List.concat_eq_append] at hconcat
    subst hconcat
    have hpre : ∀ c ∈ pre, decide (c ≠ NUL) = true := fun c hc => by
      simpa using hnul c (by simp [hc])
    have hl : decide (l ≠ NUL) = true := by simpa using hnul l (by simp)
    have hN : decide (NUL ≠ NUL) = false := by simp
    have hoff1 : rio.repute_offset - 1 = pre.length := by rw [hoff]; simp
    have hoff0 : rio.repute_offset ≠ 0 := by rw [hoff]; simp
    have htake : (pre ++ [l]).take REPUTE_URL = pre ++ [l] := List.take_of_length_le hlen
    have hshape : ∀ rest : List Char,
        (pre ++ [l] ++ [NUL]) ++ rest = pre ++ l :: NUL :: rest := by
      intro rest; simp
    simp only [storeTemplate, hbuf, hB, htake, hoff0, if_false, hoff1, hshape]
    have hlen2 : ¬ ((pre ++ l :: NUL ::
        List.drop (pre ++ [l] ++ [NUL]).length field).length ≤ pre.length) := by
      simp
    rw [if_neg hlen2]
    have hget : (pre ++ l :: NUL :: List.drop (pre ++ [l] ++ [NUL]).length field).get?
        pre.length = some l := by
      rw [List.get?_eq_getElem?, List.getElem?_append_right (Nat.le_refl _), Nat.sub_self]
      rfl
    rw [hget]
    by_cases hnl : l = '\n'
    · subst hnl
      refine ⟨_, by rw [if_pos rfl], ?_⟩
      rw [List.getLast?_concat, if_pos rfl, List.dropLast_concat]
      rw [List.set_append_right _ _ (Nat.le_refl _)]
      simp only [Nat.sub_self, List.set_cons_zero]
      exact takeWhile_stop _ pre _ NUL hpre hN
    · have hne2 : ¬ (some l = some '\n') := by simpa using hnl
      refine ⟨_, by rw [if_neg hne2], ?_⟩
      rw [List.getLast?_concat, if_neg hne2]
      have : pre ++ l :: NUL :: List.drop (pre ++ [l] ++ [NUL]).length field =
          (pre ++ [l]) ++ NUL :: List.drop (pre ++ [l] ++ [NUL]).length field := by simp
      rw [this]
      exact takeWhile_stop _ (pre ++ [l]) _ NUL
        (fun c hc => by
          rcases List.mem_append.mp hc with h | h
          · exact hpre c h
          · rw [List.mem_singleton.mp h]; exact hl) hN

/-- C11, amended: when discovery succeeds with status 200 and the receive
buffer holds the body `B` as a C string of length `repute_offset`, with `B`
not empty and at most `REPUTE_URL` bytes long, `repute_get_template` returns
OK and the cached template is `B` without its last byte when that byte is a
line feed, and `B` itself otherwise. -/
theorem C11_cached_template (W : World) (rep rep0 : repute_handle) (url : CStr)
    (rio rio1 : repute_io) (buf B : List Char)
    (hinit : W.ut_init = true)
    (hk1 : W.ut_keyvalue "scheme".toList W.REPUTE_URI_SCHEME = true)
    (hk2 : W.ut_keyvalue "service".toList rep.rep_server = true)
    (hk3 : W.ut_keyvalue "application".toList W.REPUTE_URI_APPLICATION = true)
    (hgen : W.ut_generate W.REPUTE_URI_TEMPLATE
      [ ("scheme".toList, W.REPUTE_URI_SCHEME), ("service".toList, rep.rep_server),
        ("application".toList, W.REPUTE_URI_APPLICATION) ] = some url)
    (hio : repute_get_io W rep = (some rio, rep0))
    (hs1 : W.setoptWriteData = true) (hs2 : W.setoptUrl = true)
    (hperf : curl_easy_perform W url rio = some (true, rio1))
    (hcode : W.responseCode url = 200)
    (hbuf : rio1.repute_buf = some buf) (hB : cstringOf buf = some B)
    (hoff : rio1.repute_offset = B.length) (hne : B ≠ []) (hlen : B.length ≤ REPUTE_URL) :
    ∃ rep1, repute_get_template W rep = some (REPUTE_STAT_OK, rep1) ∧
      rep1.rep_uritemp.takeWhile (fun c => decide (c ≠ NUL)) =
        if B.getLast? = some '\n' then B.dropLast else B := by
  obtain ⟨field1, hst, htw⟩ := storeTemplate_short rep0.rep_uritemp rio1 buf B hbuf hB hoff hne hlen
  refine ⟨repute_put_io { rep0 with rep_uritemp := field1 } rio1, ?_, htw⟩
  unfold repute_get_template
  rw [if_neg (fun h => h hinit), if_neg (fun h => h.elim (fun a => a hk1)
    (fun b => b.elim (fun a => a hk2) (fun a => a hk3)))]
  simp only [hgen, hio, hs1, hs2, hperf, hcode, hst, not_true_eq_false, if_false, ne_eq]

set_option maxRecDepth 100000 in
theorem templateWorld_transfer :
    curl_easy_perform templateWorld "template".toList (freshIo 1) = some (true, templateIo) ∧
    cstringOf (templateBody ++ List.replicate (1024 - templateBody.length) NUL) =
      some templateBody := by
  decide

/-- C11 amended, on a discovery response of one line with its line feed: the
cached template is the line without the line feed. -/
theorem C11_cached_template_witness :
    ∃ rep1, repute_get_template templateWorld newHandle = some (REPUTE_STAT_OK, rep1) ∧
      rep1.rep_uritemp.takeWhile (fun c => decide (c ≠ NUL)) = "http://rep.example/q".toList :=
  (C11_cached_template templateWorld newHandle newHandle "template".toList (freshIo 1)
    templateIo _ templateBody rfl rfl rfl rfl rfl rfl rfl rfl templateWorld_transfer.1 rfl rfl
    templateWorld_transfer.2 rfl (by decide) (by decide)).imp
    (fun _ h => ⟨h.1, h.2.trans (by decide)⟩)

set_option maxRecDepth 100000 in
theorem emptyBodyWorld_run : repute_get_template emptyBodyWorld newHandle = none := by
  decide

/-! ### The receive buffer when the data fits -/

theorem drop_append_replicate (data : List Char) (n k : Nat) (x : Char) :
    (data ++ List.replicate n x).drop (data.length + k) = List.replicate (n - k) x := by
  rw [List.drop_append]
  simp

theorem copyIn_holds (w data : List Char) (io : repute_io) (h : holds io data)
    (hfit : data.length + w.length ≤ io.repute_alloc) :
    ∃ io1, copyIn w io = some (w.length, io1) ∧ holds io1 (data ++ w) ∧
      io1.repute_alloc = io.repute_alloc ∧ io1.repute_curl = io.repute_curl := by
  obtain ⟨hbuf, hoff, hle⟩ := h
  have hlen : (data ++ List.replicate (io.repute_alloc - data.length) NUL).length =
      io.repute_alloc := by
    rw [List.length_append, List.length_replicate]; omega
  have hnew : List.take data.length (data ++ List.replicate (io.repute_alloc - data.length) NUL)
      ++ w ++ List.drop (data.length + w.length)
        (data ++ List.replicate (io.repute_alloc - data.length) NUL) =
      (data ++ w) ++ List.replicate (io.repute_alloc - (data ++ w).length) NUL := by
    rw [List.take_left, drop_append_replicate, List.length_append]
    congr 2
    omega
  simp only [copyIn, hbuf, hoff, hlen, hnew]
  rw [if_pos hfit]
  exact ⟨_, rfl, ⟨rfl, by simp, by simpa using hfit⟩, rfl, rfl⟩

theorem first_write_holds (curl : Nat) (w : List Char) :
    ∃ io1, repute_curl_writedata true w (freshIo curl) = some (w.length, io1) ∧
      holds io1 w ∧ io1.repute_alloc = max REPUTE_BUFBASE w.length ∧
      io1.repute_curl = curl := by
  have h0 : holds ⟨curl, max REPUTE_BUFBASE w.length, 0,
      some (List.replicate (max REPUTE_BUFBASE w.length) NUL)⟩ [] :=
    ⟨by simp, rfl, by simp⟩
  obtain ⟨io1, hc, hh, ha, hcurl⟩ := copyIn_holds w [] _ h0 (by simp)
  refine ⟨io1, ?_, by simpa using hh, ha, hcurl⟩
  simp only [repute_curl_writedata, freshIo, if_true]
  exact hc

theorem grow_write_holds (w data : List Char) (io : repute_io) (h : holds io data)
    (hfit : io.repute_offset + w.length < io.repute_alloc) :
    ∃ io1, repute_curl_writedata true w io = some (w.length, io1) ∧ holds io1 (data ++ w) ∧
      io1.repute_alloc = max (io.repute_alloc * 2) (io.repute_alloc + w.length) ∧
      io1.repute_curl = io.repute_curl := by
  obtain ⟨hbuf, hoff, hle⟩ := h
  have h1 : holds ⟨io.repute_curl, max (io.repute_alloc * 2) (io.repute_alloc + w.length),
      io.repute_offset,
      some ((data ++ List.replicate (io.repute_alloc - data.length) NUL).take
        io.repute_offset ++ List.replicate
          (max (io.repute_alloc * 2) (io.repute_alloc + w.length) - io.repute_offset) NUL)⟩
      data := by
    refine ⟨?_, hoff, ?_⟩
    · simp only [hoff, List.take_left]
    · simp only; omega
  obtain ⟨io1, hc, hh, ha, hcurl⟩ := copyIn_holds w data _ h1 (by simp only; omega)
  refine ⟨io1, ?_, hh, ha, hcurl⟩
  simp only [repute_curl_writedata, hbuf, if_pos hfit, if_true]
  exact hc

theorem cstringOf_holds (data : List Char) (n : Nat) (hn : 0 < n)
    (hdata : ∀ c ∈ data, c ≠ NUL) :
    cstringOf (data ++ List.replicate n NUL) = some data := by
  obtain ⟨m, rfl⟩ : ∃ m, n = m + 1 := ⟨n - 1, by omega⟩
  have hmem : NUL ∈ data ++ List.replicate (m + 1) NUL := by
    simp [List.replicate_succ]
  unfold cstringOf
  rw [if_pos hmem, List.replicate_succ,
    takeWhile_stop _ data _ NUL (fun c hc => by simpa using hdata c hc) (by simp)]

/-! ### C11: a body longer than the template field -/

theorem storeTemplate_one_too_long (field : List Char) (rio : repute_io) (buf B : List Char)
    (hbuf : rio.repute_buf = some buf) (hB : cstringOf buf = some B)
    (hoff : rio.repute_offset = B.length) (hlen : B.length = REPUTE_URL + 1)
    (hfield : field.length = REPUTE_URL + 1) :
    storeTemplate field rio = some (B.take REPUTE_URL ++ [NUL]) := by
  have hwl : (List.take REPUTE_URL B ++ [NUL]).length = REPUTE_URL + 1 := by
    rw [List.length_append, List.length_take, hlen]
    simp
  have hdrop : List.drop (List.take REPUTE_URL B ++ [NUL]).length field = [] := by
    rw [hwl, ← hfield]
    exact List.drop_length field
  have h0 : rio.repute_offset ≠ 0 := by rw [hoff, hlen]; simp
  have h1 : ¬ ((List.take REPUTE_URL B ++ [NUL]).length ≤ rio.repute_offset - 1) := by
    rw [hwl, hoff, hlen]; simp
  have hget : (List.take REPUTE_URL B ++ [NUL]).get? (rio.repute_offset - 1) = some NUL := by
    have hl : (List.take REPUTE_URL B).length = rio.repute_offset - 1 := by
      rw [List.length_take, hoff, hlen]; simp
    rw [← hl, List.get?_eq_getElem?, List.getElem?_append_right (Nat.le_refl _), Nat.sub_self]
    rfl
  have hne : ¬ (some NUL = some '\n') := by decide
  simp only [storeTemplate, hbuf, hB, hdrop, List.append_nil, h0, if_false, h1, hget, hne]

theorem longBody_delivery :
    ∃ rio1, curl_easy_perform longBodyWorld "template".toList (freshIo 1) = some (true, rio1) ∧
      holds rio1 longBody ∧ rio1.repute_alloc = 4096 ∧ rio1.repute_curl = 1 := by
  obtain ⟨io1, hw1, hh1, ha1, hc1⟩ := first_write_holds 1 ['a']
  have ha1' : io1.repute_alloc = 1024 := by rw [ha1]; rfl
  obtain ⟨io2, hw2, hh2, ha2, hc2⟩ := grow_write_holds ['a'] ['a'] io1 hh1
    (by rw [hh1.2.1, ha1']; decide)
  have ha2' : io2.repute_alloc = 2048 := by rw [ha2, ha1']; rfl
  obtain ⟨io3, hw3, hh3, ha3, hc3⟩ := grow_write_holds (List.replicate 1023 'a')
    (['a'] ++ ['a']) io2 hh2
    (by rw [hh2.2.1, ha2', List.length_replicate]; decide)
  have ha3' : io3.repute_alloc = 4096 := by
    rw [ha3, ha2', List.length_replicate]; rfl
  refine ⟨io3, ?_, hh3, ha3', by rw [hc3, hc2, hc1]⟩
  have hm : longBodyWorld.mallocBuf = true := rfl
  have hch : longBodyWorld.chunks "template".toList =
      [['a'], ['a'], List.replicate 1023 'a'] := rfl
  simp only [curl_easy_perform, hch, deliver, hm, hw1, hw2, hw3, ne_eq, not_true_eq_false,
    if_false]
  rfl

theorem longBody_length : longBody.length = REPUTE_URL + 1 := by
  unfold longBody
  rw [List.length_cons, List.length_cons, List.length_replicate]
  rfl

theorem longBody_no_nul : ∀ c ∈ longBody, c ≠ NUL := by
  intro c hc
  have hc' : c = 'a' := by
    simp only [longBody, List.mem_cons] at hc
    rcases hc with h | h | h
    · exact h
    · exact h
    · exact List.eq_of_mem_replicate h
  rw [hc']
  decide

theorem longBody_template :
    ∃ rep1, repute_get_template longBodyWorld newHandle = some (REPUTE_STAT_OK, rep1) ∧
      rep1.rep_uritemp.takeWhile (fun c => decide (c ≠ NUL)) = longBody.take REPUTE_URL := by
  obtain ⟨rio1, hperf, ⟨hbuf, hoff, _⟩, halloc, _⟩ := longBody_delivery
  have hB : cstringOf (longBody ++ List.replicate (rio1.repute_alloc - longBody.length) NUL) =
      some longBody :=
    cstringOf_holds longBody _ (by rw [halloc, longBody_length]; decide) longBody_no_nul
  have hfield : newHandle.rep_uritemp.length = REPUTE_URL + 1 := List.length_replicate _ _
  have hst := storeTemplate_one_too_long newHandle.rep_uritemp rio1 _ longBody hbuf hB hoff
    longBody_length hfield
  refine ⟨repute_put_io { newHandle with rep_uritemp := longBody.take REPUTE_URL ++ [NUL] } rio1,
    ?_, ?_⟩
  · have hinit : longBodyWorld.ut_init = true := rfl
    have hk1 : longBodyWorld.ut_keyvalue "scheme".toList longBodyWorld.REPUTE_URI_SCHEME = true :=
      rfl
    have hk2 : longBodyWorld.ut_keyvalue "service".toList newHandle.rep_server = true := rfl
    have hk3 : longBodyWorld.ut_keyvalue "application".toList
        longBodyWorld.REPUTE_URI_APPLICATION = true := rfl
    have hgen : longBodyWorld.ut_generate longBodyWorld.REPUTE_URI_TEMPLATE
        [ ("scheme".toList, longBodyWorld.REPUTE_URI_SCHEME),
          ("service".toList, newHandle.rep_server),
          ("application".toList, longBodyWorld.REPUTE_URI_APPLICATION) ] =
        some "template".toList := rfl
    have hio : repute_get_io longBodyWorld newHandle = (some (freshIo 1), newHandle) := rfl
    have hs1 : longBodyWorld.setoptWriteData = true := rfl
    have hs2 : longBodyWorld.setoptUrl = true := rfl
    have hcode : longBodyWorld.responseCode "template".toList = 200 := rfl
    unfold repute_get_template
    rw [if_neg (fun h => h hinit), if_neg (fun h => h.elim (fun a => a hk1)
      (fun b => b.elim (fun a => a hk2) (fun a => a hk3)))]
    simp only [hgen, hio, hs1, hs2, hperf, hcode, hst, not_true_eq_false, if_false, ne_eq]
  · show (longBody.take REPUTE_URL ++ [NUL]).takeWhile (fun c => decide (c ≠ NUL)) = _
    exact takeWhile_stop _ _ [] NUL
      (fun c hc => by simpa using longBody_no_nul c (List.mem_of_mem_take hc)) (by simp)

/-- C11 as stated fails at both ends.  On the empty body the write callback is
never called, the buffer is NULL and `repute_offset` is 0, so the `snprintf`
and the access at index `repute_offset - 1` are undefined and nothing is
cached.  On a body of 1025 bytes the call returns OK and the cached template
is the first 1024 bytes, not the body. -/
theorem C11_empty_and_long_body_counterexample :
    (emptyBodyWorld.chunks "template".toList = [] ∧
      repute_get_template emptyBodyWorld newHandle = none) ∧
    (∃ rep1, repute_get_template longBodyWorld newHandle = some (REPUTE_STAT_OK, rep1) ∧
      rep1.rep_uritemp.takeWhile (fun c => decide (c ≠ NUL)) = longBody.take REPUTE_URL) ∧
    longBody.take REPUTE_URL ≠ longBody := by
  refine ⟨⟨rfl, emptyBodyWorld_run⟩, longBody_template, fun h => ?_⟩
  have := congrArg List.length h
  rw [List.length_take, longBody_length] at this
  simp at this

/-! ### C20: exactly the acquiring calls hand a resource back -/

end Repute
